import Mathlib

/-!
Shallow embedding of the document-store access layer of the fitness-tracker
repository (`src/config/database.py`).  Documents are association lists of
string keys and JSON values; the store models the CouchDB semantics the code
relies on: `save` with optimistic-concurrency revision checks, key-filtered
and range-filtered map/reduce view queries over stored design documents, and
Mango-style equality selectors for `find`.
-/

set_option maxHeartbeats 1600000
set_option maxRecDepth 100000

/-- A JSON value as stored in documents. -/
inductive Value where
  | null : Value
  | bool : Bool → Value
  | int : Int → Value
  | str : String → Value
  | arr : List Value → Value
  | obj : List (String × Value) → Value
deriving Repr

mutual

/-- Structural boolean equality on JSON values. -/
def Value.beq : Value → Value → Bool
  | .null, .null => true
  | .bool a, .bool b => a == b
  | .int a, .int b => a == b
  | .str a, .str b => a == b
  | .arr xs, .arr ys => Value.beqList xs ys
  | .obj fs, .obj gs => Value.beqFields fs gs
  | _, _ => false

/-- Boolean equality on lists of JSON values. -/
def Value.beqList : List Value → List Value → Bool
  | [], [] => true
  | x :: xs, y :: ys => Value.beq x y && Value.beqList xs ys
  | _, _ => false

/-- Boolean equality on field lists of JSON objects. -/
def Value.beqFields : List (String × Value) → List (String × Value) → Bool
  | [], [] => true
  | (k, v) :: fs, (l, w) :: gs => k == l && Value.beq v w && Value.beqFields fs gs
  | _, _ => false

end

mutual

theorem Value.beq_refl : ∀ a : Value, Value.beq a a = true
  | .null => rfl
  | .bool a => by simp [Value.beq]
  | .int a => by simp [Value.beq]
  | .str a => by simp [Value.beq]
  | .arr xs => by simp [Value.beq, Value.beqList_refl xs]
  | .obj fs => by simp [Value.beq, Value.beqFields_refl fs]

theorem Value.beqList_refl : ∀ xs : List Value, Value.beqList xs xs = true
  | [] => rfl
  | x :: xs => by simp [Value.beqList, Value.beq_refl x, Value.beqList_refl xs]

theorem Value.beqFields_refl : ∀ fs : List (String × Value), Value.beqFields fs fs = true
  | [] => rfl
  | (k, v) :: fs => by
      simp [Value.beqFields, Value.beq_refl v, Value.beqFields_refl fs]

end

mutual

theorem Value.eq_of_beq : ∀ a b : Value, Value.beq a b = true → a = b
  | .null, b => by cases b <;> simp [Value.beq]
  | .bool a, b => by cases b <;> simp [Value.beq]
  | .int a, b => by cases b <;> simp [Value.beq]
  | .str a, b => by cases b <;> simp [Value.beq]
  | .arr xs, b => by
      cases b <;> simp [Value.beq]
      exact Value.eqList_of_beqList xs _
  | .obj fs, b => by
      cases b <;> simp [Value.beq]
      exact Value.eqFields_of_beqFields fs _

theorem Value.eqList_of_beqList : ∀ xs ys : List Value, Value.beqList xs ys = true → xs = ys
  | [], ys => by cases ys <;> simp [Value.beqList]
  | x :: xs, ys => by
      cases ys with
      | nil => simp [Value.beqList]
      | cons y ys =>
          simp only [Value.beqList, Bool.and_eq_true]
          rintro ⟨h1, h2⟩
          rw [Value.eq_of_beq x y h1, Value.eqList_of_beqList xs ys h2]

theorem Value.eqFields_of_beqFields :
    ∀ fs gs : List (String × Value), Value.beqFields fs gs = true → fs = gs
  | [], gs => by cases gs <;> simp [Value.beqFields]
  | (k, v) :: fs, gs => by
      cases gs with
      | nil => simp [Value.beqFields]
      | cons g gs =>
          simp only [Value.beqFields, Bool.and_eq_true]
          rintro ⟨⟨h0, h1⟩, h2⟩
          rw [Value.eq_of_beq v g.2 h1, Value.eqFields_of_beqFields fs gs h2]
          simp_all

end

instance : DecidableEq Value := fun a b =>
  decidable_of_iff (Value.beq a b = true)
    ⟨Value.eq_of_beq a b, fun h => h ▸ Value.beq_refl a⟩

/-- A document body: string keys mapped to JSON values, in insertion order. -/
abbrev Doc := List (String × Value)

/-- `d[k]` lookup: first binding of key `k`, as Python dict access. -/
def lookupField (d : Doc) (k : String) : Option Value :=
  (d.find? (fun kv => kv.1 == k)).map (fun kv => kv.2)

/-- Python dict assignment `d[k] = v`: replace in place if present, else append. -/
def setField (d : Doc) (k : String) (v : Value) : Doc :=
  if d.any (fun kv => kv.1 == k) then
    d.map (fun kv => if kv.1 = k then (k, v) else kv)
  else d ++ [(k, v)]

/-- Remove the store-metadata fields from a document body. -/
def stripMeta (d : Doc) : Doc :=
  d.filter (fun kv => kv.1 != "_id" && kv.1 != "_rev")

/-- A persisted document: store-assigned id, revision number, and body
(the fields other than `_id`/`_rev`).  CouchDB revision tokens are modelled
by their leading generation number. -/
structure StoredDoc where
  id : String
  rev : Nat
  body : Doc
deriving DecidableEq, Repr

/-- The retrieved form of a stored document: body prefixed with the
`_id` and `_rev` fields, as CouchDB returns documents. -/
def StoredDoc.toDoc (sd : StoredDoc) : Doc :=
  ("_id", .str sd.id) :: ("_rev", .int (sd.rev : Int)) :: sd.body

/-- The database: persisted documents in creation order plus a counter for
store-assigned fresh ids. -/
structure Store where
  docs : List StoredDoc
  counter : Nat
deriving DecidableEq, Repr

def emptyStore : Store := ⟨[], 0⟩

/-- Errors surfaced by the store: `conflict` is `couchdb.http.ResourceConflict`
(stale `_rev`), `notFound` is `couchdb.http.ResourceNotFound`, `indexError`
models a Python `IndexError`. -/
inductive DbError where
  | conflict : DbError
  | notFound : DbError
  | badRequest : DbError
  | indexError : DbError
deriving DecidableEq, Repr

/-- First stored document with the given id. -/
def getStored (st : Store) (i : String) : Option StoredDoc :=
  st.docs.find? (fun sd => sd.id == i)

/-- Membership test, Python `doc_id in self.db`. -/
def dbHas (st : Store) (i : String) : Bool :=
  st.docs.any (fun sd => sd.id == i)

/-- Store-assigned fresh document id (CouchDB assigns a UUID; the model
draws from a counter). -/
def freshId (n : Nat) : String := "doc_" ++ toString n

/-- `self.db.save(doc)` with CouchDB semantics: a document carrying an `_id`
updates the stored document of that id when its `_rev` matches the current
revision (bumping the revision), conflicts when the `_rev` is stale or the id
is new but a `_rev` is supplied, and is created at revision 1 otherwise; a
document without `_id` is created under a fresh id.  An error leaves the
store unchanged (the Python exception aborts the operation). -/
def dbSave (st : Store) (doc : Doc) : Except DbError (String × Nat) × Store :=
  match lookupField doc "_id" with
  | some (.str i) =>
    match getStored st i with
    | some sd =>
      if lookupField doc "_rev" = some (.int (sd.rev : Int)) then
        let sd' : StoredDoc := ⟨i, sd.rev + 1, stripMeta doc⟩
        (.ok (i, sd.rev + 1),
          ⟨st.docs.map (fun d => if d.id == i then sd' else d), st.counter⟩)
      else (.error .conflict, st)
    | none =>
      if (lookupField doc "_rev").isSome then (.error .conflict, st)
      else (.ok (i, 1), ⟨st.docs ++ [⟨i, 1, stripMeta doc⟩], st.counter⟩)
  | some _ => (.error .badRequest, st)
  | none =>
    let i := freshId st.counter
    (.ok (i, 1), ⟨st.docs ++ [⟨i, 1, stripMeta doc⟩], st.counter + 1⟩)

/-- Mango `self.db.find(query)` with an equality selector: every stored
document (in store order) all of whose selector fields match exactly. -/
def dbFind (st : Store) (selector : List (String × Value)) : List Doc :=
  st.docs.filterMap (fun sd =>
    let d := sd.toDoc
    if selector.all (fun kv => lookupField d kv.1 == some kv.2) then some d else none)

/-- Rank of a JSON value in the CouchDB collation order. -/
def Value.typeRank : Value → Nat
  | .null => 0
  | .bool _ => 1
  | .int _ => 2
  | .str _ => 3
  | .arr _ => 4
  | .obj _ => 5

mutual

/-- CouchDB view-key collation: null < booleans < numbers < strings <
arrays < objects; arrays compare lexicographically. -/
def Value.cmp : Value → Value → Ordering
  | .null, .null => .eq
  | .bool a, .bool b => compare a b
  | .int a, .int b => compare a b
  | .str a, .str b => if a.data < b.data then .lt else if a = b then .eq else .gt
  | .arr xs, .arr ys => Value.cmpList xs ys
  | .obj fs, .obj gs => Value.cmpFields fs gs
  | v, w => compare v.typeRank w.typeRank

def Value.cmpList : List Value → List Value → Ordering
  | [], [] => .eq
  | [], _ :: _ => .lt
  | _ :: _, [] => .gt
  | x :: xs, y :: ys =>
    match Value.cmp x y with
    | .eq => Value.cmpList xs ys
    | o => o

def Value.cmpFields : List (String × Value) → List (String × Value) → Ordering
  | [], [] => .eq
  | [], _ :: _ => .lt
  | _ :: _, [] => .gt
  | (k, v) :: fs, (l, w) :: gs =>
    match compare k l with
    | .eq =>
      match Value.cmp v w with
      | .eq => Value.cmpFields fs gs
      | o => o
    | o => o

end

/-- `a ≤ b` in the collation order, as used for view key-range bounds. -/
def Value.leB (a b : Value) : Bool :=
  match Value.cmp a b with
  | .gt => false
  | _ => true

/-- One row of a view result: emitted key, emitted value, and the emitting
document's id (`none` for reduce rows). -/
structure Row where
  key : Value
  value : Value
  id : Option String
deriving DecidableEq, Repr

/-- Insert a row into a key-sorted list of rows. -/
def insertRow (r : Row) : List Row → List Row
  | [] => [r]
  | x :: xs => if Value.leB r.key x.key then r :: x :: xs else x :: insertRow r xs

/-- Sort view rows by key (CouchDB returns rows in key order). -/
def sortRows : List Row → List Row
  | [] => []
  | x :: xs => insertRow x (sortRows xs)

/-- Query parameters of `self.db.view(...)`: exact key, start key, end key. -/
structure ViewParams where
  key : Option Value
  startkey : Option Value
  endkey : Option Value
deriving Repr

/-! The map/reduce sources stored in the design documents, verbatim from
`Database._create_design_documents` (braces and quotes written as escapes). -/

def usersByUsernameMapJS : String :=
  "function(doc) \x7b if (doc.type === \x27user_profile\x27) \x7b emit(doc.username, doc); \x7d \x7d"

def usersByEmailMapJS : String :=
  "function(doc) \x7b if (doc.type === \x27user_profile\x27) \x7b emit(doc.email, doc); \x7d \x7d"

def exercisesByHevyIdMapJS : String :=
  "function(doc) \x7b if (doc.type === \x27exercise\x27) \x7b emit(doc.hevy_id, doc); \x7d \x7d"

def exercisesByMuscleGroupMapJS : String :=
  "function(doc) \x7b if (doc.type === \x27exercise\x27) \x7b emit(doc.muscle_group, doc); \x7d \x7d"

def exercisesAllMapJS : String :=
  "function(doc) \x7b if (doc.type === \x27exercise\x27) \x7b emit(doc._id, doc); \x7d \x7d"

def workoutsByHevyIdMapJS : String :=
  "function(doc) \x7b if (doc.type === \x27workout\x27) \x7b emit(doc.hevy_id, doc); \x7d \x7d"

def workoutsByDateMapJS : String :=
  "function(doc) \x7b if (doc.type === \x27workout\x27) \x7b emit(doc.start_time, doc); \x7d \x7d"

def workoutsByExerciseMapJS : String :=
  "function(doc) \x7b if (doc.type === \x27workout\x27) \x7b doc.exercises.forEach(function(ex) \x7b emit([ex.template_id, doc.start_time], doc); \x7d); \x7d \x7d"

def workoutsStatsMapJS : String :=
  "function(doc) \x7b if (doc.type === \x27workout\x27) \x7b emit(doc.start_time, \x7bduration: doc.duration, exercise_count: doc.exercises.length\x7d); \x7d \x7d"

def workoutsStatsReduceJS : String :=
  "function(keys, values, rereduce) \x7b return \x7btotal_duration: values.reduce(function(a, b) \x7b return a + b.duration; \x7d, 0), total_exercises: values.reduce(function(a, b) \x7b return a + b.exercise_count; \x7d, 0), count: values.length\x7d; \x7d"

/-- `emit(doc.keyField, doc)` guarded by `doc.type === ty`: the common shape
of the simple map functions above. -/
def emitByField (d : Doc) (ty : String) (keyField : String) : List (Value × Value) :=
  match lookupField d "type" with
  | some (.str t) => if t = ty then [((lookupField d keyField).getD .null, .obj d)] else []
  | _ => []

/-- `ex.template_id` for an entry of `doc.exercises`. -/
def exTemplateId (ex : Value) : Value :=
  match ex with
  | .obj fs => (lookupField fs "template_id").getD .null
  | _ => .null

/-- Semantics of the map sources above on one (retrieved) document.  A source
string that is none of the known map functions emits nothing. -/
def evalMapJS (js : String) (d : Doc) : List (Value × Value) :=
  if js = usersByUsernameMapJS then emitByField d "user_profile" "username"
  else if js = usersByEmailMapJS then emitByField d "user_profile" "email"
  else if js = exercisesByHevyIdMapJS then emitByField d "exercise" "hevy_id"
  else if js = exercisesByMuscleGroupMapJS then emitByField d "exercise" "muscle_group"
  else if js = exercisesAllMapJS then emitByField d "exercise" "_id"
  else if js = workoutsByHevyIdMapJS then emitByField d "workout" "hevy_id"
  else if js = workoutsByDateMapJS then emitByField d "workout" "start_time"
  else if js = workoutsByExerciseMapJS then
    match lookupField d "type", lookupField d "exercises" with
    | some (.str "workout"), some (.arr exs) =>
        exs.map (fun ex =>
          (.arr [exTemplateId ex, (lookupField d "start_time").getD .null], .obj d))
    | _, _ => []
  else if js = workoutsStatsMapJS then
    match lookupField d "type", lookupField d "exercises" with
    | some (.str "workout"), some (.arr exs) =>
        [((lookupField d "start_time").getD .null,
          .obj [("duration", (lookupField d "duration").getD .null),
                ("exercise_count", .int (exs.length : Int))])]
    | _, _ => []
  else []

/-- Integer field of an emitted stats value (`b.duration`, `b.exercise_count`). -/
def statValInt (field : String) (v : Value) : Int :=
  match v with
  | .obj fs =>
    match lookupField fs field with
    | some (.int n) => n
    | _ => 0
  | _ => 0

/-- Semantics of the reduce sources above on the list of emitted values. -/
def evalReduceJS (js : String) (values : List Value) : Value :=
  if js = workoutsStatsReduceJS then
    .obj [("total_duration", .int (values.map (statValInt "duration")).sum),
          ("total_exercises", .int (values.map (statValInt "exercise_count")).sum),
          ("count", .int (values.length : Int))]
  else .null

/-- Look up the named view in the stored design document: its map source
and, when present, its reduce source.  `none` when the design document, its
views table, the view, or its map source is missing. -/
def viewDef (st : Store) (design : String) (view : String) :
    Option (String × Option String) :=
  match getStored st ("_design/" ++ design) with
  | none => none
  | some dd =>
    match lookupField dd.body "views" with
    | some (.obj vs) =>
      match lookupField vs view with
      | some (.obj vdef) =>
        match lookupField vdef "map" with
        | some (.str mapJs) =>
          some (mapJs,
            match lookupField vdef "reduce" with
            | some (.str redJs) => some redJs
            | _ => none)
        | _ => none
      | _ => none
    | _ => none

/-- The rows the map function emits over the stored documents, in store
order. -/
def rowsOfDocs (l : List StoredDoc) (mapJs : String) : List Row :=
  (l.map (fun sd =>
    (evalMapJS mapJs sd.toDoc).map (fun kv => Row.mk kv.1 kv.2 (some sd.id)))).flatten

/-- `self.db.view(design/view, ...)`: raises `ResourceNotFound` when the
view is absent; otherwise maps over all stored documents, applies the key
filters (ranges are inclusive on both ends), sorts rows by key, and — when
the view defines a reduce — returns the single reduced row (no rows when
nothing matched). -/
def dbView (st : Store) (design : String) (view : String) (p : ViewParams) :
    Except DbError (List Row) :=
  match viewDef st design view with
  | none => .error .notFound
  | some (mapJs, red) =>
    let rows := rowsOfDocs st.docs mapJs
    let rows := match p.key with
      | some k => rows.filter (fun r => r.key == k)
      | none => rows
    let rows := match p.startkey with
      | some k => rows.filter (fun r => Value.leB k r.key)
      | none => rows
    let rows := match p.endkey with
      | some k => rows.filter (fun r => Value.leB r.key k)
      | none => rows
    let sorted := sortRows rows
    match red with
    | some redJs =>
      if sorted.isEmpty then .ok []
      else .ok [⟨.null, evalReduceJS redJs (sorted.map (fun r => r.value)), none⟩]
    | none => .ok sorted

/-! ## Schema bootstrap (`Database._create_design_documents`) -/

/-- The users design document as saved by the bootstrap. -/
def usersDesignDoc : Doc :=
  [("_id", .str "_design/users"),
   ("views", .obj
     [("by_username", .obj [("map", .str usersByUsernameMapJS)]),
      ("by_email", .obj [("map", .str usersByEmailMapJS)])])]

/-- The exercises design document as saved by the bootstrap. -/
def exercisesDesignDoc : Doc :=
  [("_id", .str "_design/exercises"),
   ("views", .obj
     [("by_hevy_id", .obj [("map", .str exercisesByHevyIdMapJS)]),
      ("by_muscle_group", .obj [("map", .str exercisesByMuscleGroupMapJS)]),
      ("all", .obj [("map", .str exercisesAllMapJS)])])]

/-- The workouts design document as saved by the bootstrap. -/
def workoutsDesignDoc : Doc :=
  [("_id", .str "_design/workouts"),
   ("views", .obj
     [("by_hevy_id", .obj [("map", .str workoutsByHevyIdMapJS)]),
      ("by_date", .obj [("map", .str workoutsByDateMapJS)]),
      ("by_exercise", .obj [("map", .str workoutsByExerciseMapJS)]),
      ("stats", .obj [("map", .str workoutsStatsMapJS),
                      ("reduce", .str workoutsStatsReduceJS)])])]

/-- One `if "_design/..." not in self.db: self.db.save(...)` block of
`Database._create_design_documents`. -/
def ensureDesignDoc (st : Store) (name : String) (doc : Doc) : Store :=
  if dbHas st ("_design/" ++ name) then st else (dbSave st doc).2

/-- `Database._create_design_documents`: for each of the three fixed design
documents in turn, save it only when no document of that id exists. -/
def createDesignDocuments (st : Store) : Store :=
  ensureDesignDoc
    (ensureDesignDoc (ensureDesignDoc st "users" usersDesignDoc)
      "exercises" exercisesDesignDoc)
    "workouts" workoutsDesignDoc

/-- The store right after connecting to a fresh database: empty store with
the bootstrap run once. -/
def bootStore : Store := createDesignDocuments emptyStore

/-! ## Document access layer -/

/-- A Python value as handed to `Database.save_document`: JSON scalars and
containers plus `datetime` objects (carrying their `isoformat()` string) and
objects exposing `model_dump()` or `dict()`. -/
inductive PyVal where
  | null : PyVal
  | bool : Bool → PyVal
  | int : Int → PyVal
  | str : String → PyVal
  | dt : String → PyVal
  | list : List PyVal → PyVal
  | dict : List (String × PyVal) → PyVal
  | objMD : PyVal → PyVal
  | objD : PyVal → PyVal
deriving Repr

mutual

/-- `Database._ensure_json_serializable`: recursively rebuild dicts and
lists, turn a datetime into its ISO string, and replace an object exposing
`model_dump()` (respectively `dict()`) by the normalization of what that
method returns; anything else is returned unchanged. -/
def ensureJsonSerializable : PyVal → PyVal
  | .dict fs => .dict (ensureFields fs)
  | .list xs => .list (ensureList xs)
  | .dt s => .str s
  | .objMD p => ensureJsonSerializable p
  | .objD p => ensureJsonSerializable p
  | v => v

def ensureFields : List (String × PyVal) → List (String × PyVal)
  | [] => []
  | (k, v) :: rest => (k, ensureJsonSerializable v) :: ensureFields rest

def ensureList : List PyVal → List PyVal
  | [] => []
  | v :: rest => ensureJsonSerializable v :: ensureList rest

end

mutual

/-- A Python value is pure when no datetime and no `model_dump()`/`dict()`
object occurs anywhere in it — i.e. it is plain JSON. -/
def PyVal.pure : PyVal → Bool
  | .dict fs => PyVal.pureFields fs
  | .list xs => PyVal.pureList xs
  | .dt _ => false
  | .objMD _ => false
  | .objD _ => false
  | _ => true

def PyVal.pureFields : List (String × PyVal) → Bool
  | [] => true
  | (_, v) :: rest => PyVal.pure v && PyVal.pureFields rest

def PyVal.pureList : List PyVal → Bool
  | [] => true
  | v :: rest => PyVal.pure v && PyVal.pureList rest

end

mutual

/-- The JSON value a pure Python value serializes to. -/
def PyVal.toValue : PyVal → Value
  | .null => .null
  | .bool b => .bool b
  | .int n => .int n
  | .str s => .str s
  | .dt s => .str s
  | .list xs => .arr (PyVal.toValueList xs)
  | .dict fs => .obj (PyVal.toValueFields fs)
  | .objMD p => PyVal.toValue p
  | .objD p => PyVal.toValue p

def PyVal.toValueList : List PyVal → List Value
  | [] => []
  | v :: rest => PyVal.toValue v :: PyVal.toValueList rest

def PyVal.toValueFields : List (String × PyVal) → List (String × Value)
  | [] => []
  | (k, v) :: rest => (k, PyVal.toValue v) :: PyVal.toValueFields rest

end

/-- Fields of a serialized JSON object (a normalized top-level document). -/
def docFields : Value → Doc
  | .obj fs => fs
  | _ => []

/-- `Database.save_document`: normalize the document with
`_ensure_json_serializable`, then save it; returns the `(id, rev)` pair the
store assigned.  Underlying write failures propagate (`raise`). -/
def saveDocument (st : Store) (fields : List (String × PyVal)) :
    Except DbError (String × Nat) × Store :=
  dbSave st (docFields (PyVal.toValue (ensureJsonSerializable (.dict fields))))

/-- `Database.update_document`: a bare `self.db.save(doc)`. -/
def updateDocument (st : Store) (doc : Doc) : Except DbError (String × Nat) × Store :=
  dbSave st doc

/-! ## Domain query layer -/

/-- A Python `datetime`, identified by its `isoformat()` string; the ISO
order of the strings is the time order. -/
structure PyDateTime where
  iso : String
deriving DecidableEq, Repr

/-- `Database.get_workouts_by_date_range`: range query on
`workouts/by_date` over the isoformat bounds, returning the row values;
`ResourceNotFound` (missing view) degrades to the empty list. -/
def getWorkoutsByDateRange (st : Store) (startDate endDate : PyDateTime) :
    Except DbError (List Value) :=
  match dbView st "workouts" "by_date"
      ⟨none, some (.str startDate.iso), some (.str endDate.iso)⟩ with
  | .ok rows => .ok (rows.map (fun r => r.value))
  | .error .notFound => .ok []
  | .error e => .error e

/-- `Database.get_workout_stats`: ranged reduce query on `workouts/stats`
when both bounds are given, full reduce otherwise; no error handling. -/
def getWorkoutStats (st : Store) (startDate endDate : Option PyDateTime) :
    Except DbError (List Value) :=
  match startDate, endDate with
  | some s, some e =>
    (dbView st "workouts" "stats" ⟨none, some (.str s.iso), some (.str e.iso)⟩).map
      (fun rows => rows.map (fun r => r.value))
  | _, _ =>
    (dbView st "workouts" "stats" ⟨none, none, none⟩).map
      (fun rows => rows.map (fun r => r.value))

/-- `Database.get_workout_progression`: compound-key range query on
`workouts/by_exercise` from `[id]` to `[id, {}]`; no error handling. -/
def getWorkoutProgression (st : Store) (exerciseTemplateId : String) :
    Except DbError (List Value) :=
  (dbView st "workouts" "by_exercise"
    ⟨none, some (.arr [.str exerciseTemplateId]),
      some (.arr [.str exerciseTemplateId, .obj []])⟩).map
    (fun rows => rows.map (fun r => r.value))

/-- The body of `Database.get_user_by_username` before its catch-all
`except`: Mango find on type/username, then the first result with the
`preferred_workout_days` list coerced to its first element — indexing an
empty list raises `IndexError`. -/
def getUserByUsernameCore (st : Store) (username : String) :
    Except DbError (Option Doc) :=
  match dbFind st [("type", .str "user_profile"), ("username", .str username)] with
  | [] => .ok none
  | d :: _ =>
    match lookupField d "preferred_workout_days" with
    | some (.arr []) => .error .indexError
    | some (.arr (x :: _)) => .ok (some (setField d "preferred_workout_days" x))
    | _ => .ok (some d)

/-- `Database.get_user_by_username`: any exception in the body is caught and
turned into `None`. -/
def getUserByUsername (st : Store) (username : String) : Option Doc :=
  match getUserByUsernameCore st username with
  | .ok r => r
  | .error _ => none

/-- `Database.get_exercise_by_hevy_id`: exact-key query on
`exercises/by_hevy_id` with `include_docs`, first row's document or `None`;
any exception yields `None`. -/
def getExerciseByHevyId (st : Store) (hevyId : Value) : Option Doc :=
  match dbView st "exercises" "by_hevy_id" ⟨some hevyId, none, none⟩ with
  | .ok [] => none
  | .ok (r :: _) =>
    match r.id with
    | some i => (getStored st i).map StoredDoc.toDoc
    | none => none
  | .error _ => none

/-- `Database.get_workout_by_hevy_id`: same shape over
`workouts/by_hevy_id`. -/
def getWorkoutByHevyId (st : Store) (hevyId : Value) : Option Doc :=
  match dbView st "workouts" "by_hevy_id" ⟨some hevyId, none, none⟩ with
  | .ok [] => none
  | .ok (r :: _) =>
    match r.id with
    | some i => (getStored st i).map StoredDoc.toDoc
    | none => none
  | .error _ => none

/-- `Database.save_exercise`: when the payload carries a `hevy_id`, look up
the existing exercise by that id and, if found, copy its `_id`/`_rev` onto
the payload; then save.  Returns the document id; save errors propagate. -/
def saveExercise (st : Store) (data : Doc) : Except DbError String × Store :=
  let data' :=
    match lookupField data "hevy_id" with
    | some hv =>
      match getExerciseByHevyId st hv with
      | some ex =>
        setField (setField data "_id" ((lookupField ex "_id").getD .null))
          "_rev" ((lookupField ex "_rev").getD .null)
      | none => data
    | none => data
  match dbSave st data' with
  | (.ok (i, _), st') => (.ok i, st')
  | (.error e, st') => (.error e, st')

/-- `Database.save_workout`: the same reconciliation over
`workouts/by_hevy_id`. -/
def saveWorkout (st : Store) (data : Doc) : Except DbError String × Store :=
  let data' :=
    match lookupField data "hevy_id" with
    | some hv =>
      match getWorkoutByHevyId st hv with
      | some wo =>
        setField (setField data "_id" ((lookupField wo "_id").getD .null))
          "_rev" ((lookupField wo "_rev").getD .null)
      | none => data
    | none => data
  match dbSave st data' with
  | (.ok (i, _), st') => (.ok i, st')
  | (.error e, st') => (.error e, st')

/-- Run `save_exercise` on each payload in turn; a raise aborts the rest. -/
def saveExerciseSeq : Store → List Doc → Except DbError Unit × Store
  | st, [] => (.ok (), st)
  | st, p :: ps =>
    match saveExercise st p with
    | (.ok _, st') => saveExerciseSeq st' ps
    | (.error e, st') => (.error e, st')

/-- Run `save_workout` on each payload in turn; a raise aborts the rest. -/
def saveWorkoutSeq : Store → List Doc → Except DbError Unit × Store
  | st, [] => (.ok (), st)
  | st, p :: ps =>
    match saveWorkout st p with
    | (.ok _, st') => saveWorkoutSeq st' ps
    | (.error e, st') => (.error e, st')

/-! ## Basic lemmas about documents and the store -/

@[simp] theorem lookupField_nil (k : String) : lookupField [] k = none := rfl

theorem lookupField_cons (k : String) (v : Value) (d : Doc) (k' : String) :
    lookupField ((k, v) :: d) k' = if k = k' then some v else lookupField d k' := by
  by_cases h : k = k' <;> simp [lookupField, List.find?_cons, h]

theorem lookupField_eq_none_iff (d : Doc) (k : String) :
    lookupField d k = none ↔ ∀ kv ∈ d, kv.1 ≠ k := by
  simp [lookupField, List.find?_eq_none]

theorem lookupField_append (d e : Doc) (k : String) :
    lookupField (d ++ e) k =
      match lookupField d k with
      | some v => some v
      | none => lookupField e k := by
  induction d with
  | nil => simp
  | cons kv d ih =>
      cases kv with
      | mk k1 v1 =>
          by_cases h : k1 = k <;> simp [lookupField_cons, h, ih]

theorem anyKey_eq_isSome (d : Doc) (k : String) :
    (d.any fun kv => kv.1 == k) = (lookupField d k).isSome := by
  induction d with
  | nil => simp
  | cons kv d ih =>
      cases kv with
      | mk k1 v1 =>
          by_cases h : k1 = k <;> simp [lookupField_cons, h, ih]

theorem lookupField_overwrite (d : Doc) (k k' : String) (v : Value) :
    lookupField (d.map (fun kv => if kv.1 = k then (k, v) else kv)) k' =
      if k = k' then (lookupField d k).map (fun _ => v) else lookupField d k' := by
  induction d with
  | nil => by_cases h : k = k' <;> simp [h]
  | cons kv d ih =>
      cases kv with
      | mk k1 v1 =>
          by_cases h1 : k1 = k
          · subst h1
            by_cases h2 : k1 = k' <;> simp [lookupField_cons, h2, ih]
          · by_cases h2 : k1 = k'
            · subst h2
              simp [h1, lookupField_cons, Ne.symm h1, ih]
            · simp [h1, h2, lookupField_cons, ih]

theorem lookupField_setField_self (d : Doc) (k : String) (v : Value) :
    lookupField (setField d k v) k = some v := by
  unfold setField
  split
  · rename_i h
    rw [anyKey_eq_isSome] at h
    rw [lookupField_overwrite, if_pos rfl]
    cases hl : lookupField d k with
    | some w => simp
    | none => rw [hl] at h; simp at h
  · rename_i h
    rw [anyKey_eq_isSome] at h
    rw [lookupField_append]
    cases hl : lookupField d k with
    | some w => simp [hl] at h
    | none => simp [hl, lookupField_cons]

theorem lookupField_setField_ne (d : Doc) (k k' : String) (v : Value) (h : k ≠ k') :
    lookupField (setField d k v) k' = lookupField d k' := by
  unfold setField
  split
  · rw [lookupField_overwrite, if_neg h]
  · rw [lookupField_append]
    cases hl : lookupField d k' with
    | some w => simp
    | none => simp [lookupField_cons, h]

theorem stripMeta_eq_self (d : Doc) (h1 : lookupField d "_id" = none)
    (h2 : lookupField d "_rev" = none) : stripMeta d = d := by
  rw [lookupField_eq_none_iff] at h1 h2
  apply List.filter_eq_self.2
  intro kv hkv
  simp [h1 kv hkv, h2 kv hkv]

theorem stripMeta_append (d e : Doc) : stripMeta (d ++ e) = stripMeta d ++ stripMeta e := by
  simp [stripMeta]

theorem stripMeta_overwrite_meta (k : String) (v : Value)
    (hkb : (k != "_id" && k != "_rev") = false) (d : Doc) :
    stripMeta (d.map (fun kv => if kv.1 = k then (k, v) else kv)) = stripMeta d := by
  induction d with
  | nil => rfl
  | cons kv d ih =>
      cases kv with
      | mk k1 v1 =>
          by_cases h1 : k1 = k
          · subst h1
            simp [stripMeta, List.filter_cons, hkb] at ih ⊢
            exact ih
          · simp only [List.map_cons, if_neg h1]
            simp only [stripMeta, List.filter_cons] at ih ⊢
            cases hmeta : (k1 != "_id" && k1 != "_rev") <;> simp [hmeta, ih]

theorem stripMeta_setField_meta (d : Doc) (k : String) (v : Value)
    (hk : k = "_id" ∨ k = "_rev") : stripMeta (setField d k v) = stripMeta d := by
  have hkb : (k != "_id" && k != "_rev") = false := by
    rcases hk with h | h <;> simp [h]
  unfold setField
  split
  · exact stripMeta_overwrite_meta k v hkb d
  · rw [stripMeta_append]
    have : stripMeta [(k, v)] = [] := by
      rw [stripMeta, List.filter_cons, hkb]
      rfl
    simp [this]

theorem lookupField_toDoc (sd : StoredDoc) (k : String) (h1 : k ≠ "_id")
    (h2 : k ≠ "_rev") : lookupField sd.toDoc k = lookupField sd.body k := by
  rw [StoredDoc.toDoc, lookupField_cons, lookupField_cons, if_neg (Ne.symm h1),
    if_neg (Ne.symm h2)]

theorem dbFind_eq_filter (l : List StoredDoc) (c : Nat) (sel : List (String × Value)) :
    dbFind ⟨l, c⟩ sel =
      (l.filter (fun sd =>
        sel.all (fun kv => lookupField sd.toDoc kv.1 == some kv.2))).map
        StoredDoc.toDoc := by
  induction l with
  | nil => rfl
  | cons sd l ih =>
      rw [dbFind] at ih ⊢
      simp only [List.filterMap_cons, List.filter_cons]
      cases h : sel.all (fun kv => lookupField sd.toDoc kv.1 == some kv.2) <;>
        simp [h, ih]

theorem insertRow_perm (r : Row) (l : List Row) : (insertRow r l).Perm (r :: l) := by
  induction l with
  | nil => simp [insertRow]
  | cons x xs ih =>
      rw [insertRow]
      split
      · exact List.Perm.refl _
      · exact (ih.cons x).trans (List.Perm.swap r x xs)

theorem sortRows_perm (l : List Row) : (sortRows l).Perm l := by
  induction l with
  | nil => simp [sortRows]
  | cons x xs ih => exact (insertRow_perm x (sortRows xs)).trans (ih.cons x)

/-- Whether the named view (with a map source) is present in the store. -/
def hasView (st : Store) (design : String) (view : String) : Bool :=
  (viewDef st design view).isSome

theorem dbView_notFound (st : Store) (design view : String) (p : ViewParams)
    (h : hasView st design view = false) :
    dbView st design view p = .error .notFound := by
  rw [hasView] at h
  rw [dbView]
  cases hv : viewDef st design view with
  | none => rfl
  | some md => rw [hv] at h; simp at h

theorem dbView_ok_or_notFound (st : Store) (design view : String) (p : ViewParams) :
    dbView st design view p = .error .notFound ∨ ∃ l, dbView st design view p = .ok l := by
  rw [dbView]
  cases hv : viewDef st design view with
  | none => left; rfl
  | some md =>
      right
      obtain ⟨mapJs, red⟩ := md
      cases red with
      | none => exact ⟨_, rfl⟩
      | some redJs =>
          dsimp only
          split
          · exact ⟨_, rfl⟩
          · exact ⟨_, rfl⟩

theorem getWorkoutsByDateRange_total (st : Store) (d1 d2 : PyDateTime) :
    ∃ l, getWorkoutsByDateRange st d1 d2 = .ok l := by
  rw [getWorkoutsByDateRange]
  rcases dbView_ok_or_notFound st "workouts" "by_date"
      ⟨none, some (.str d1.iso), some (.str d2.iso)⟩ with h | ⟨l, h⟩ <;>
    rw [h]
  · exact ⟨_, rfl⟩
  · exact ⟨_, rfl⟩

/-! ## Claim C3: update requires the current revision -/

/-- C3: `update_document(doc)` requires `doc` to carry the stored document's
current `_rev`: with a stale (non-matching or absent) `_rev` the call fails
with a conflict and the store is unchanged; with the current `_rev` the
update succeeds, replacing the stored document and bumping its revision. -/
theorem updateDocument_revision_check (st : Store) (doc : Doc) (i : String)
    (sd : StoredDoc) (hid : lookupField doc "_id" = some (.str i))
    (hst : getStored st i = some sd) :
    (lookupField doc "_rev" ≠ some (.int (sd.rev : Int)) →
      updateDocument st doc = (.error .conflict, st)) ∧
    (lookupField doc "_rev" = some (.int (sd.rev : Int)) →
      updateDocument st doc =
        (.ok (i, sd.rev + 1),
          ⟨st.docs.map (fun d =>
            if d.id == i then ⟨i, sd.rev + 1, stripMeta doc⟩ else d), st.counter⟩)) := by
  constructor
  · intro h
    simp only [updateDocument, dbSave, hid, hst]
    rw [if_neg h]
  · intro h
    simp only [updateDocument, dbSave, hid, hst]
    rw [if_pos h]

/-- Witness for C3: one stale update conflicts and leaves the store as it
was; one current update succeeds at the bumped revision. -/
theorem updateDocument_revision_check_witness :
    updateDocument ⟨[⟨"u1", 3, [("a", .int 1)]⟩], 5⟩
        [("_id", .str "u1"), ("_rev", .int 2), ("a", .int 9)] =
      (.error .conflict, ⟨[⟨"u1", 3, [("a", .int 1)]⟩], 5⟩) ∧
    updateDocument ⟨[⟨"u1", 3, [("a", .int 1)]⟩], 5⟩
        [("_id", .str "u1"), ("_rev", .int 3), ("a", .int 9)] =
      (.ok ("u1", 4), ⟨[⟨"u1", 4, [("a", .int 9)]⟩], 5⟩) := by
  constructor
  · exact (updateDocument_revision_check ⟨[⟨"u1", 3, [("a", .int 1)]⟩], 5⟩
      [("_id", .str "u1"), ("_rev", .int 2), ("a", .int 9)] "u1"
      ⟨"u1", 3, [("a", .int 1)]⟩ (by decide) (by decide)).1 (by decide)
  · have h := (updateDocument_revision_check ⟨[⟨"u1", 3, [("a", .int 1)]⟩], 5⟩
      [("_id", .str "u1"), ("_rev", .int 3), ("a", .int 9)] "u1"
      ⟨"u1", 3, [("a", .int 1)]⟩ (by decide) (by decide)).2 (by decide)
    rw [h]
    rfl

/-! ## Claim C2: behavior of the domain reads when the backing view is absent -/

/-- C2 counterexample: on a store with no views at all,
`get_workout_stats` and `get_workout_progression` raise `ResourceNotFound`
instead of returning an empty sequence — the claim that every domain read
method degrades to an empty result is false. -/
theorem domain_reads_missing_view_counterexample :
    getWorkoutStats emptyStore none none = .error .notFound ∧
    getWorkoutProgression emptyStore "t1" = .error .notFound := by
  constructor <;> rfl

/-- C2 as amended: with the backing view absent,
`get_workouts_by_date_range` returns the empty list (and it never raises,
on any store); `get_workout_stats` and `get_workout_progression` propagate
the `ResourceNotFound` error instead. -/
theorem domain_reads_missing_view (st : Store) (d1 d2 : PyDateTime)
    (tid : String) (sd ed : Option PyDateTime) :
    (hasView st "workouts" "by_date" = false →
      getWorkoutsByDateRange st d1 d2 = .ok []) ∧
    (∃ l, getWorkoutsByDateRange st d1 d2 = .ok l) ∧
    (hasView st "workouts" "stats" = false →
      getWorkoutStats st sd ed = .error .notFound) ∧
    (hasView st "workouts" "by_exercise" = false →
      getWorkoutProgression st tid = .error .notFound) := by
  refine ⟨fun h => ?_, getWorkoutsByDateRange_total st d1 d2, fun h => ?_, fun h => ?_⟩
  · rw [getWorkoutsByDateRange, dbView_notFound _ _ _ _ h]
  · cases sd <;> cases ed <;>
      simp [getWorkoutStats, dbView_notFound _ _ _ _ h, Except.map]
  · simp [getWorkoutProgression, dbView_notFound _ _ _ _ h, Except.map]

/-- Witness for C2 (amended) on the empty store. -/
theorem domain_reads_missing_view_witness :
    getWorkoutsByDateRange emptyStore ⟨"2024-01-01"⟩ ⟨"2024-02-01"⟩ = .ok [] ∧
    getWorkoutStats emptyStore (some ⟨"2024-01-01"⟩) (some ⟨"2024-02-01"⟩) =
      .error .notFound ∧
    getWorkoutProgression emptyStore "sq1" = .error .notFound := by
  refine ⟨?_, ?_, ?_⟩
  · exact (domain_reads_missing_view emptyStore ⟨"2024-01-01"⟩ ⟨"2024-02-01"⟩ "sq1"
      none none).1 (by rfl)
  · exact (domain_reads_missing_view emptyStore ⟨"2024-01-01"⟩ ⟨"2024-02-01"⟩ "sq1"
      (some ⟨"2024-01-01"⟩) (some ⟨"2024-02-01"⟩)).2.2.1 (by rfl)
  · exact (domain_reads_missing_view emptyStore ⟨"2024-01-01"⟩ ⟨"2024-02-01"⟩ "sq1"
      none none).2.2.2 (by rfl)

/-! ## Claim C5: the bootstrap is idempotent and never overwrites -/

theorem getStored_append (l e : List StoredDoc) (c c' : Nat) (i : String)
    (sd : StoredDoc) (h : getStored ⟨l, c⟩ i = some sd) :
    getStored ⟨l ++ e, c'⟩ i = some sd := by
  rw [getStored] at h ⊢
  induction l with
  | nil => simp at h
  | cons x l ih =>
      simp only [List.cons_append, List.find?_cons] at h ⊢
      cases hx : (x.id == i) <;> rw [hx] at h <;> simp only [hx]
      · exact ih h
      · exact h

theorem dbHas_eq_isSome (st : Store) (i : String) :
    dbHas st i = (getStored st i).isSome := by
  rw [dbHas, getStored]
  induction st.docs with
  | nil => rfl
  | cons x l ih =>
      simp only [List.any_cons, List.find?_cons]
      cases hx : (x.id == i) <;> simp [hx, ih]

theorem dbSave_create (st : Store) (doc : Doc) (n : String)
    (hid : lookupField doc "_id" = some (.str n))
    (hrev : lookupField doc "_rev" = none)
    (habs : getStored st n = none) :
    dbSave st doc = (.ok (n, 1), ⟨st.docs ++ [⟨n, 1, stripMeta doc⟩], st.counter⟩) := by
  simp [dbSave, hid, habs, hrev]

theorem getStored_eq_none_of_not_dbHas (st : Store) (i : String)
    (h : dbHas st i = false) : getStored st i = none := by
  rw [dbHas_eq_isSome] at h
  cases hg : getStored st i with
  | none => rfl
  | some sd => rw [hg] at h; simp at h

theorem ensureDesignDoc_getStored (st : Store) (name : String) (doc : Doc)
    (hid : lookupField doc "_id" = some (.str ("_design/" ++ name)))
    (hrev : lookupField doc "_rev" = none)
    (i : String) (sd : StoredDoc) (h : getStored st i = some sd) :
    getStored (ensureDesignDoc st name doc) i = some sd := by
  rw [ensureDesignDoc]
  cases hh : dbHas st ("_design/" ++ name) with
  | true => rw [if_pos rfl]; exact h
  | false =>
      rw [if_neg (by simp)]
      rw [dbSave_create st doc _ hid hrev (getStored_eq_none_of_not_dbHas st _ hh)]
      cases st with
      | mk l c => exact getStored_append l _ c c i sd h

theorem ensureDesignDoc_dbHas (st : Store) (name : String) (doc : Doc)
    (hid : lookupField doc "_id" = some (.str ("_design/" ++ name)))
    (hrev : lookupField doc "_rev" = none)
    (i : String) (h : dbHas st i = true) :
    dbHas (ensureDesignDoc st name doc) i = true := by
  rw [dbHas_eq_isSome] at h ⊢
  cases hg : getStored st i with
  | none => rw [hg] at h; simp at h
  | some sd => rw [ensureDesignDoc_getStored st name doc hid hrev i sd hg]; rfl

theorem ensureDesignDoc_has_self (st : Store) (name : String) (doc : Doc)
    (hid : lookupField doc "_id" = some (.str ("_design/" ++ name)))
    (hrev : lookupField doc "_rev" = none) :
    dbHas (ensureDesignDoc st name doc) ("_design/" ++ name) = true := by
  rw [ensureDesignDoc]
  cases hh : dbHas st ("_design/" ++ name) with
  | true => rw [if_pos rfl]; exact hh
  | false =>
      rw [if_neg (by simp)]
      rw [dbSave_create st doc _ hid hrev (getStored_eq_none_of_not_dbHas st _ hh)]
      simp [dbHas]

theorem ensureDesignDoc_noop (st : Store) (name : String) (doc : Doc)
    (h : dbHas st ("_design/" ++ name) = true) :
    ensureDesignDoc st name doc = st := by
  rw [ensureDesignDoc, if_pos h]

/-- C5: the view bootstrap never overwrites an existing design document —
a stored design document named users, exercises or workouts survives the
bootstrap unchanged (same id, revision and contents) — and running the
bootstrap twice from any store yields the same store as running it once. -/
theorem createDesignDocuments_idempotent (st : Store) (sd : StoredDoc) :
    (getStored st "_design/users" = some sd →
      getStored (createDesignDocuments st) "_design/users" = some sd) ∧
    (getStored st "_design/exercises" = some sd →
      getStored (createDesignDocuments st) "_design/exercises" = some sd) ∧
    (getStored st "_design/workouts" = some sd →
      getStored (createDesignDocuments st) "_design/workouts" = some sd) ∧
    createDesignDocuments (createDesignDocuments st) = createDesignDocuments st := by
  have hidU : lookupField usersDesignDoc "_id" =
      some (.str ("_design/" ++ "users")) := by decide
  have hrevU : lookupField usersDesignDoc "_rev" = none := by decide
  have hidE : lookupField exercisesDesignDoc "_id" =
      some (.str ("_design/" ++ "exercises")) := by decide
  have hrevE : lookupField exercisesDesignDoc "_rev" = none := by decide
  have hidW : lookupField workoutsDesignDoc "_id" =
      some (.str ("_design/" ++ "workouts")) := by decide
  have hrevW : lookupField workoutsDesignDoc "_rev" = none := by decide
  refine ⟨?_, ?_, ?_, ?_⟩
  · intro h
    rw [createDesignDocuments]
    exact ensureDesignDoc_getStored _ _ _ hidW hrevW _ _
      (ensureDesignDoc_getStored _ _ _ hidE hrevE _ _
        (ensureDesignDoc_getStored _ _ _ hidU hrevU _ _ h))
  · intro h
    rw [createDesignDocuments]
    exact ensureDesignDoc_getStored _ _ _ hidW hrevW _ _
      (ensureDesignDoc_getStored _ _ _ hidE hrevE _ _
        (ensureDesignDoc_getStored _ _ _ hidU hrevU _ _ h))
  · intro h
    rw [createDesignDocuments]
    exact ensureDesignDoc_getStored _ _ _ hidW hrevW _ _
      (ensureDesignDoc_getStored _ _ _ hidE hrevE _ _
        (ensureDesignDoc_getStored _ _ _ hidU hrevU _ _ h))
  · have hu : dbHas (createDesignDocuments st) ("_design/" ++ "users") = true := by
      rw [createDesignDocuments]
      exact ensureDesignDoc_dbHas _ _ _ hidW hrevW _
        (ensureDesignDoc_dbHas _ _ _ hidE hrevE _
          (ensureDesignDoc_has_self _ _ _ hidU hrevU))
    have he : dbHas (createDesignDocuments st) ("_design/" ++ "exercises") = true := by
      rw [createDesignDocuments]
      exact ensureDesignDoc_dbHas _ _ _ hidW hrevW _
        (ensureDesignDoc_has_self _ _ _ hidE hrevE)
    have hw : dbHas (createDesignDocuments st) ("_design/" ++ "workouts") = true := by
      rw [createDesignDocuments]
      exact ensureDesignDoc_has_self _ _ _ hidW hrevW
    conv_lhs => rw [createDesignDocuments]
    rw [ensureDesignDoc_noop _ _ _ hu, ensureDesignDoc_noop _ _ _ he,
      ensureDesignDoc_noop _ _ _ hw]

/-- Witness for C5: a pre-existing users design document with custom
contents survives the bootstrap, and bootstrapping the empty store twice
equals bootstrapping it once. -/
theorem createDesignDocuments_idempotent_witness :
    getStored (createDesignDocuments ⟨[⟨"_design/users", 7, [("views", .null)]⟩], 0⟩)
        "_design/users" = some ⟨"_design/users", 7, [("views", .null)]⟩ ∧
    createDesignDocuments (createDesignDocuments emptyStore) =
      createDesignDocuments emptyStore := by
  constructor
  · exact (createDesignDocuments_idempotent
      ⟨[⟨"_design/users", 7, [("views", .null)]⟩], 0⟩
      ⟨"_design/users", 7, [("views", .null)]⟩).1 (by rfl)
  · exact (createDesignDocuments_idempotent emptyStore ⟨"x", 0, []⟩).2.2.2

/-! ## Claim C6: save_document normalization -/

mutual

theorem ensure_pure : ∀ p : PyVal, PyVal.pure (ensureJsonSerializable p) = true
  | .null => by simp [ensureJsonSerializable, PyVal.pure]
  | .bool b => by simp [ensureJsonSerializable, PyVal.pure]
  | .int n => by simp [ensureJsonSerializable, PyVal.pure]
  | .str s => by simp [ensureJsonSerializable, PyVal.pure]
  | .dt s => by simp [ensureJsonSerializable, PyVal.pure]
  | .list xs => by
      simp only [ensureJsonSerializable, PyVal.pure]
      exact ensureList_pure xs
  | .dict fs => by
      simp only [ensureJsonSerializable, PyVal.pure]
      exact ensureFields_pure fs
  | .objMD p => by
      simp only [ensureJsonSerializable]
      exact ensure_pure p
  | .objD p => by
      simp only [ensureJsonSerializable]
      exact ensure_pure p

theorem ensureList_pure : ∀ xs : List PyVal, PyVal.pureList (ensureList xs) = true
  | [] => by simp [ensureList, PyVal.pureList]
  | x :: xs => by
      simp only [ensureList, PyVal.pureList, Bool.and_eq_true]
      exact ⟨ensure_pure x, ensureList_pure xs⟩

theorem ensureFields_pure :
    ∀ fs : List (String × PyVal), PyVal.pureFields (ensureFields fs) = true
  | [] => by simp [ensureFields, PyVal.pureFields]
  | (k, v) :: fs => by
      simp only [ensureFields, PyVal.pureFields, Bool.and_eq_true]
      exact ⟨ensure_pure v, ensureFields_pure fs⟩

end

mutual

theorem ensure_of_pure : ∀ p : PyVal, PyVal.pure p = true → ensureJsonSerializable p = p
  | .null, _ => by simp [ensureJsonSerializable]
  | .bool b, _ => by simp [ensureJsonSerializable]
  | .int n, _ => by simp [ensureJsonSerializable]
  | .str s, _ => by simp [ensureJsonSerializable]
  | .dt s, h => by simp [PyVal.pure] at h
  | .objMD p, h => by simp [PyVal.pure] at h
  | .objD p, h => by simp [PyVal.pure] at h
  | .list xs, h => by
      simp only [PyVal.pure] at h
      simp only [ensureJsonSerializable]
      rw [ensureList_of_pure xs h]
  | .dict fs, h => by
      simp only [PyVal.pure] at h
      simp only [ensureJsonSerializable]
      rw [ensureFields_of_pure fs h]

theorem ensureList_of_pure : ∀ xs : List PyVal, PyVal.pureList xs = true → ensureList xs = xs
  | [], _ => by simp [ensureList]
  | x :: xs, h => by
      simp only [PyVal.pureList, Bool.and_eq_true] at h
      simp only [ensureList]
      rw [ensure_of_pure x h.1, ensureList_of_pure xs h.2]

theorem ensureFields_of_pure :
    ∀ fs : List (String × PyVal), PyVal.pureFields fs = true → ensureFields fs = fs
  | [], _ => by simp [ensureFields]
  | (k, v) :: fs, h => by
      simp only [PyVal.pureFields, Bool.and_eq_true] at h
      simp only [ensureFields]
      rw [ensure_of_pure v h.1, ensureFields_of_pure fs h.2]

end

theorem ensureFields_eq_map (fs : List (String × PyVal)) :
    ensureFields fs = fs.map (fun kv => (kv.1, ensureJsonSerializable kv.2)) := by
  induction fs with
  | nil => simp [ensureFields]
  | cons kv fs ih =>
      cases kv with
      | mk k v => simp [ensureFields, ih]

theorem ensureList_eq_map (xs : List PyVal) :
    ensureList xs = xs.map ensureJsonSerializable := by
  induction xs with
  | nil => simp [ensureList]
  | cons x xs ih => simp [ensureList, ih]

/-- C6: `save_document` normalizes the document before persisting — the
normalization replaces every datetime anywhere in the document by its ISO
string and every `model_dump()`/`dict()` object by its normalized mapping
form (so its output contains neither), acts homomorphically on dicts and
lists, leaves already-plain values unchanged — and the call persists the
normalized document, returning the `(id, revision)` pair the store
assigned. -/
theorem saveDocument_normalizes (st : Store) (fields : List (String × PyVal))
    (p : PyVal) (s : String) (xs : List PyVal) :
    PyVal.pure (ensureJsonSerializable p) = true ∧
    (PyVal.pure p = true → ensureJsonSerializable p = p) ∧
    ensureJsonSerializable (.dt s) = .str s ∧
    ensureJsonSerializable (.objMD p) = ensureJsonSerializable p ∧
    ensureJsonSerializable (.objD p) = ensureJsonSerializable p ∧
    ensureJsonSerializable (.dict fields) =
      .dict (fields.map (fun kv => (kv.1, ensureJsonSerializable kv.2))) ∧
    ensureJsonSerializable (.list xs) = .list (xs.map ensureJsonSerializable) ∧
    saveDocument st fields =
      dbSave st (docFields (PyVal.toValue (ensureJsonSerializable (.dict fields)))) := by
  refine ⟨ensure_pure p, ensure_of_pure p, by simp [ensureJsonSerializable],
    by simp [ensureJsonSerializable], by simp [ensureJsonSerializable],
    by simp [ensureJsonSerializable, ensureFields_eq_map],
    by simp [ensureJsonSerializable, ensureList_eq_map], rfl⟩

/-- Witness for C6: a document holding a nested datetime and a pydantic-like
object is persisted in fully serialized form, with the store-assigned id and
revision returned. -/
theorem saveDocument_normalizes_witness :
    PyVal.pure (ensureJsonSerializable
      (.objMD (.dict [("t", .dt "2024-01-02T03:04:05")]))) = true ∧
    ensureJsonSerializable (.str "Squat") = .str "Squat" ∧
    saveDocument emptyStore
        [("created", .dt "2024-01-02T03:04:05"),
         ("ex", .objD (.dict [("name", .str "Squat")]))] =
      (.ok ("doc_0", 1),
        ⟨[⟨"doc_0", 1,
            [("created", .str "2024-01-02T03:04:05"),
             ("ex", .obj [("name", .str "Squat")])]⟩], 1⟩) := by
  refine ⟨(saveDocument_normalizes emptyStore []
      (.objMD (.dict [("t", .dt "2024-01-02T03:04:05")])) "s" []).1,
    (saveDocument_normalizes emptyStore [] (.str "Squat") "s" []).2.1 (by decide),
    ?_⟩
  have h := (saveDocument_normalizes emptyStore
      [("created", .dt "2024-01-02T03:04:05"),
       ("ex", .objD (.dict [("name", .str "Squat")]))]
      (.str "x") "s" []).2.2.2.2.2.2.2
  rw [h]
  rfl

/-! ## Claims C8 and C10: get_user_by_username -/

/-- The documents the Mango selector of `get_user_by_username` matches:
type `user_profile` and exactly the requested username. -/
def isUserMatch (u : String) (sd : StoredDoc) : Bool :=
  (lookupField sd.toDoc "type" == some (.str "user_profile")) &&
  (lookupField sd.toDoc "username" == some (.str u))

/-- First stored document matching the selector, in store order. -/
def firstUserMatch (st : Store) (u : String) : Option StoredDoc :=
  (st.docs.filter (isUserMatch u)).head?

theorem dbFind_userSelector (st : Store) (u : String) :
    dbFind st [("type", .str "user_profile"), ("username", .str u)] =
      (st.docs.filter (isUserMatch u)).map StoredDoc.toDoc := by
  cases st with
  | mk l c =>
      rw [dbFind_eq_filter]
      congr 1
      apply List.filter_congr
      intro sd _
      simp [isUserMatch, List.all_cons]

/-- C8 (amended): `get_user_by_username` returns the first stored document
of type `user_profile` whose username equals the argument exactly, `None`
when there is none; a nonempty-sequence `preferred_workout_days` is coerced
to its first element, while an empty sequence makes the call return `None`
(the coercion raises and the handler swallows it). -/
theorem getUserByUsername_characterization (st : Store) (u : String) :
    getUserByUsername st u =
      match firstUserMatch st u with
      | none => none
      | some sd =>
        match lookupField sd.toDoc "preferred_workout_days" with
        | some (.arr []) => none
        | some (.arr (x :: _)) => some (setField sd.toDoc "preferred_workout_days" x)
        | _ => some sd.toDoc := by
  rw [getUserByUsername, getUserByUsernameCore, dbFind_userSelector, firstUserMatch]
  cases hf : st.docs.filter (isUserMatch u) with
  | nil => rfl
  | cons sd rest =>
      simp only [List.map_cons, List.head?_cons]
      cases hl : lookupField sd.toDoc "preferred_workout_days" with
      | none => rfl
      | some v =>
          cases v with
          | arr xs => cases xs <;> rfl
          | null => rfl
          | bool b => rfl
          | int n => rfl
          | str s => rfl
          | obj fs => rfl

/-- C8 counterexample: a stored `user_profile` document matching the
selector exists, but because its `preferred_workout_days` is an empty
sequence the call returns `None` instead of that document. -/
theorem getUserByUsername_empty_days_counterexample :
    isUserMatch "alice"
      ⟨"u1", 1, [("type", .str "user_profile"), ("username", .str "alice"),
        ("preferred_workout_days", .arr [])]⟩ = true ∧
    getUserByUsername
      ⟨[⟨"u1", 1, [("type", .str "user_profile"), ("username", .str "alice"),
        ("preferred_workout_days", .arr [])]⟩], 0⟩ "alice" = none := by
  constructor
  · rfl
  · rfl

/-- C10: `get_user_by_username` catches every exception of its body and
returns `None` — in particular, when the first matching document's
`preferred_workout_days` is an empty sequence, indexing it raises
`IndexError` in the body and the call returns `None` instead of the
matching document. -/
theorem getUserByUsername_catches (st : Store) (u : String) :
    (∀ e, getUserByUsernameCore st u = .error e → getUserByUsername st u = none) ∧
    (∀ sd, firstUserMatch st u = some sd →
      lookupField sd.toDoc "preferred_workout_days" = some (.arr []) →
      getUserByUsernameCore st u = .error .indexError ∧
      getUserByUsername st u = none) := by
  constructor
  · intro e h
    rw [getUserByUsername, h]
  · intro sd h hpwd
    have hcore : getUserByUsernameCore st u = .error .indexError := by
      rw [getUserByUsernameCore, dbFind_userSelector]
      rw [firstUserMatch] at h
      cases hf : st.docs.filter (isUserMatch u) with
      | nil => rw [hf] at h; simp at h
      | cons a rest =>
          rw [hf] at h
          simp only [List.head?_cons, Option.some_inj] at h
          subst h
          simp only [List.map_cons]
          rw [hpwd]
    refine ⟨hcore, ?_⟩
    rw [getUserByUsername, hcore]

/-- Witness for C10 at a store whose only user has an empty
`preferred_workout_days` list. -/
theorem getUserByUsername_catches_witness :
    getUserByUsernameCore
      ⟨[⟨"u2", 1, [("type", .str "user_profile"), ("username", .str "bob"),
        ("preferred_workout_days", .arr [])]⟩], 0⟩ "bob" = .error .indexError ∧
    getUserByUsername
      ⟨[⟨"u2", 1, [("type", .str "user_profile"), ("username", .str "bob"),
        ("preferred_workout_days", .arr [])]⟩], 0⟩ "bob" = none := by
  exact (getUserByUsername_catches
    ⟨[⟨"u2", 1, [("type", .str "user_profile"), ("username", .str "bob"),
      ("preferred_workout_days", .arr [])]⟩], 0⟩ "bob").2
    ⟨"u2", 1, [("type", .str "user_profile"), ("username", .str "bob"),
      ("preferred_workout_days", .arr [])]⟩ (by rfl) (by rfl)

/-! ## Claim C9: payloads without hevy_id are never reconciled -/

/-- C9: a payload with no `hevy_id` key skips the reconciliation lookup in
`save_exercise` and `save_workout`: it is persisted as a brand-new document
under the store-assigned fresh id even when a document with identical
fields is already stored (the count of stored documents with exactly the
payload's body grows by one). -/
theorem save_no_hevy_id_always_creates (st : Store) (p : Doc)
    (hh : lookupField p "hevy_id" = none)
    (hid : lookupField p "_id" = none)
    (hrev : lookupField p "_rev" = none)
    (hfresh : getStored st (freshId st.counter) = none) :
    saveExercise st p =
      (.ok (freshId st.counter),
        ⟨st.docs ++ [⟨freshId st.counter, 1, p⟩], st.counter + 1⟩) ∧
    saveWorkout st p =
      (.ok (freshId st.counter),
        ⟨st.docs ++ [⟨freshId st.counter, 1, p⟩], st.counter + 1⟩) ∧
    dbHas st (freshId st.counter) = false ∧
    ((saveExercise st p).2.docs.countP (fun sd => sd.body == p)) =
      (st.docs.countP (fun sd => sd.body == p)) + 1 := by
  have hsm : stripMeta p = p := stripMeta_eq_self p hid hrev
  have hex : saveExercise st p =
      (.ok (freshId st.counter),
        ⟨st.docs ++ [⟨freshId st.counter, 1, p⟩], st.counter + 1⟩) := by
    simp only [saveExercise, hh, dbSave, hid, hsm]
  have hwo : saveWorkout st p =
      (.ok (freshId st.counter),
        ⟨st.docs ++ [⟨freshId st.counter, 1, p⟩], st.counter + 1⟩) := by
    simp only [saveWorkout, hh, dbSave, hid, hsm]
  refine ⟨hex, hwo, ?_, ?_⟩
  · rw [dbHas_eq_isSome, hfresh]
    rfl
  · rw [hex]
    simp [List.countP_append, List.countP_cons]

/-- Witness for C9: saving a payload identical to an already-stored
document and carrying no `hevy_id` duplicates it under a fresh id. -/
theorem save_no_hevy_id_always_creates_witness :
    saveExercise ⟨[⟨"old", 1, [("name", .str "Squat")]⟩], 0⟩
        [("name", .str "Squat")] =
      (.ok "doc_0",
        ⟨[⟨"old", 1, [("name", .str "Squat")]⟩,
          ⟨"doc_0", 1, [("name", .str "Squat")]⟩], 1⟩) ∧
    ((saveExercise ⟨[⟨"old", 1, [("name", .str "Squat")]⟩], 0⟩
        [("name", .str "Squat")]).2.docs.countP
      (fun sd => sd.body == [("name", .str "Squat")])) =
      (([⟨"old", 1, [("name", .str "Squat")]⟩] :
        List StoredDoc).countP (fun sd => sd.body == [("name", .str "Squat")])) + 1 := by
  have h := save_no_hevy_id_always_creates
    ⟨[⟨"old", 1, [("name", .str "Squat")]⟩], 0⟩ [("name", .str "Squat")]
    (by rfl) (by rfl) (by rfl) (by rfl)
  exact ⟨h.1, h.2.2.2⟩

/-! ## Evaluation lemmas for the view machinery -/

/-- The three design documents as the bootstrap stores them. -/
def bootDocs : List StoredDoc :=
  [⟨"_design/users", 1, stripMeta usersDesignDoc⟩,
   ⟨"_design/exercises", 1, stripMeta exercisesDesignDoc⟩,
   ⟨"_design/workouts", 1, stripMeta workoutsDesignDoc⟩]

theorem bootStore_eq : bootStore = ⟨bootDocs ++ [], 0⟩ := by decide

theorem evalMapJS_no_type (js : String) (d : Doc) (h : lookupField d "type" = none) :
    evalMapJS js d = [] := by
  unfold evalMapJS
  split_ifs <;> simp [emitByField, h]

theorem emitByField_eq (d : Doc) (ty keyField : String)
    (h : lookupField d "type" = some (.str ty)) :
    emitByField d ty keyField = [((lookupField d keyField).getD .null, .obj d)] := by
  simp [emitByField, h]

theorem evalMapJS_exercisesByHevyId (d : Doc) :
    evalMapJS exercisesByHevyIdMapJS d = emitByField d "exercise" "hevy_id" := by
  unfold evalMapJS
  rw [if_neg (by decide), if_neg (by decide), if_pos rfl]

theorem evalMapJS_workoutsByHevyId (d : Doc) :
    evalMapJS workoutsByHevyIdMapJS d = emitByField d "workout" "hevy_id" := by
  unfold evalMapJS
  rw [if_neg (by decide), if_neg (by decide), if_neg (by decide), if_neg (by decide),
    if_neg (by decide), if_pos rfl]

theorem evalMapJS_workoutsByDate (d : Doc) :
    evalMapJS workoutsByDateMapJS d = emitByField d "workout" "start_time" := by
  unfold evalMapJS
  rw [if_neg (by decide), if_neg (by decide), if_neg (by decide), if_neg (by decide),
    if_neg (by decide), if_neg (by decide), if_pos rfl]

theorem evalMapJS_stats_emit (d : Doc) (n : Int) (xs : List Value)
    (hty : lookupField d "type" = some (.str "workout"))
    (hdur : lookupField d "duration" = some (.int n))
    (hexs : lookupField d "exercises" = some (.arr xs)) :
    evalMapJS workoutsStatsMapJS d =
      [((lookupField d "start_time").getD .null,
        .obj [("duration", .int n), ("exercise_count", .int (xs.length : Int))])] := by
  unfold evalMapJS
  rw [if_neg (by decide), if_neg (by decide), if_neg (by decide), if_neg (by decide),
    if_neg (by decide), if_neg (by decide), if_neg (by decide), if_neg (by decide),
    if_pos rfl]
  simp [hty, hexs, hdur]

theorem evalMapJS_stats_not_workout (d : Doc)
    (h : ¬ lookupField d "type" = some (.str "workout")) :
    evalMapJS workoutsStatsMapJS d = [] := by
  unfold evalMapJS
  rw [if_neg (by decide), if_neg (by decide), if_neg (by decide), if_neg (by decide),
    if_neg (by decide), if_neg (by decide), if_neg (by decide), if_neg (by decide),
    if_pos rfl]
  split
  · rename_i heq _
    exact absurd heq h
  · rfl

theorem rowsOfDocs_nil (js : String) : rowsOfDocs [] js = [] := rfl

theorem rowsOfDocs_cons (sd : StoredDoc) (l : List StoredDoc) (js : String) :
    rowsOfDocs (sd :: l) js =
      (evalMapJS js sd.toDoc).map (fun kv => Row.mk kv.1 kv.2 (some sd.id)) ++
        rowsOfDocs l js := by
  simp [rowsOfDocs]

theorem rowsOfDocs_append (l1 l2 : List StoredDoc) (js : String) :
    rowsOfDocs (l1 ++ l2) js = rowsOfDocs l1 js ++ rowsOfDocs l2 js := by
  simp [rowsOfDocs]

theorem rowsOfDocs_bootDocs (js : String) : rowsOfDocs bootDocs js = [] := by
  have h1 : lookupField
      (StoredDoc.toDoc ⟨"_design/users", 1, stripMeta usersDesignDoc⟩) "type" = none := by
    decide
  have h2 : lookupField
      (StoredDoc.toDoc ⟨"_design/exercises", 1, stripMeta exercisesDesignDoc⟩) "type" =
      none := by decide
  have h3 : lookupField
      (StoredDoc.toDoc ⟨"_design/workouts", 1, stripMeta workoutsDesignDoc⟩) "type" =
      none := by decide
  rw [bootDocs, rowsOfDocs_cons, rowsOfDocs_cons, rowsOfDocs_cons, rowsOfDocs_nil,
    evalMapJS_no_type js _ h1, evalMapJS_no_type js _ h2, evalMapJS_no_type js _ h3]
  rfl

theorem getStored_append_right (l e : List StoredDoc) (c c' : Nat) (i : String)
    (h : getStored ⟨l, c⟩ i = none) :
    getStored ⟨l ++ e, c'⟩ i = getStored ⟨e, c'⟩ i := by
  rw [getStored] at h ⊢
  rw [getStored]
  induction l with
  | nil => simp
  | cons x l ih =>
      simp only [List.cons_append, List.find?_cons] at h ⊢
      cases hx : (x.id == i) <;> rw [hx] at h <;> simp only [hx]
      · exact ih h
      · simp at h

theorem viewDef_boot (rest : List StoredDoc) (c : Nat) :
    viewDef ⟨bootDocs ++ rest, c⟩ "exercises" "by_hevy_id" =
      some (exercisesByHevyIdMapJS, none) ∧
    viewDef ⟨bootDocs ++ rest, c⟩ "workouts" "by_hevy_id" =
      some (workoutsByHevyIdMapJS, none) ∧
    viewDef ⟨bootDocs ++ rest, c⟩ "workouts" "by_date" =
      some (workoutsByDateMapJS, none) ∧
    viewDef ⟨bootDocs ++ rest, c⟩ "workouts" "stats" =
      some (workoutsStatsMapJS, some workoutsStatsReduceJS) := by
  have he : getStored ⟨bootDocs ++ rest, c⟩ "_design/exercises" =
      some ⟨"_design/exercises", 1, stripMeta exercisesDesignDoc⟩ :=
    getStored_append bootDocs rest 0 c _ _ (by decide)
  have hw : getStored ⟨bootDocs ++ rest, c⟩ "_design/workouts" =
      some ⟨"_design/workouts", 1, stripMeta workoutsDesignDoc⟩ :=
    getStored_append bootDocs rest 0 c _ _ (by decide)
  refine ⟨?_, ?_, ?_, ?_⟩ <;> simp only [viewDef, he, hw] <;> rfl

/-! ## Claim C1: upsert sequences keyed by hevy_id -/

theorem lookupField_toDoc_id (sd : StoredDoc) :
    lookupField sd.toDoc "_id" = some (.str sd.id) := by
  rw [StoredDoc.toDoc, lookupField_cons, if_pos rfl]

theorem lookupField_toDoc_rev (sd : StoredDoc) :
    lookupField sd.toDoc "_rev" = some (.int (sd.rev : Int)) := by
  rw [StoredDoc.toDoc, lookupField_cons, if_neg (by decide), lookupField_cons,
    if_pos rfl]

/-- An external payload of the given type discriminant carrying the given
external id, and no store metadata of its own. -/
def hevyPayload (ty e : String) (p : Doc) : Prop :=
  lookupField p "type" = some (.str ty) ∧
  lookupField p "hevy_id" = some (.str e) ∧
  lookupField p "_id" = none ∧
  lookupField p "_rev" = none

/-- The store after a bootstrap and `k` upserts of the same external entity:
the three design documents plus one domain document at revision `k`. -/
def midStore (k : Nat) (b : Doc) : Store := ⟨bootDocs ++ [⟨"doc_0", k, b⟩], 1⟩

theorem dbView_ok_nil (st : Store) (design view mapJs : String)
    (red : Option String) (p : ViewParams)
    (hvd : viewDef st design view = some (mapJs, red))
    (hrows : rowsOfDocs st.docs mapJs = []) :
    dbView st design view p = .ok [] := by
  obtain ⟨key, sk, ek⟩ := p
  simp only [dbView, hvd, hrows]
  cases key <;> cases sk <;> cases ek <;> cases red <;> simp [sortRows]

theorem getStored_midStore (k : Nat) (b : Doc) :
    getStored (midStore k b) "doc_0" = some ⟨"doc_0", k, b⟩ := by
  rw [midStore]
  rw [getStored_append_right bootDocs _ 0 1 _ (by decide)]
  rfl

theorem dbView_byHevy_midStore (design view mapJs ty : String) (e : String)
    (k : Nat) (b : Doc)
    (hvd : viewDef (midStore k b) design view = some (mapJs, none))
    (hmap : ∀ d : Doc, evalMapJS mapJs d = emitByField d ty "hevy_id")
    (hty : lookupField b "type" = some (.str ty))
    (hhe : lookupField b "hevy_id" = some (.str e)) :
    dbView (midStore k b) design view ⟨some (.str e), none, none⟩ =
      .ok [⟨.str e, .obj (StoredDoc.toDoc ⟨"doc_0", k, b⟩), some "doc_0"⟩] := by
  have htytd : lookupField (StoredDoc.toDoc ⟨"doc_0", k, b⟩) "type" =
      some (.str ty) := by
    rw [lookupField_toDoc _ _ (by decide) (by decide)]
    exact hty
  have hhetd : lookupField (StoredDoc.toDoc ⟨"doc_0", k, b⟩) "hevy_id" =
      some (.str e) := by
    rw [lookupField_toDoc _ _ (by decide) (by decide)]
    exact hhe
  simp only [dbView, hvd]
  simp only [midStore, rowsOfDocs_append, rowsOfDocs_bootDocs,
    rowsOfDocs_cons, rowsOfDocs_nil, hmap, emitByField_eq _ ty "hevy_id" htytd,
    hhetd]
  simp [sortRows, insertRow]

theorem getExerciseByHevyId_bootStore (e : String) :
    getExerciseByHevyId bootStore (.str e) = none := by
  have hdb : dbView bootStore "exercises" "by_hevy_id"
      ⟨some (.str e), none, none⟩ = .ok [] := by
    rw [bootStore_eq]
    exact dbView_ok_nil _ _ _ _ _ _ (viewDef_boot [] 0).1
      (by rw [rowsOfDocs_append, rowsOfDocs_bootDocs, rowsOfDocs_nil]; rfl)
  simp only [getExerciseByHevyId, hdb]

theorem getWorkoutByHevyId_bootStore (e : String) :
    getWorkoutByHevyId bootStore (.str e) = none := by
  have hdb : dbView bootStore "workouts" "by_hevy_id"
      ⟨some (.str e), none, none⟩ = .ok [] := by
    rw [bootStore_eq]
    exact dbView_ok_nil _ _ _ _ _ _ (viewDef_boot [] 0).2.1
      (by rw [rowsOfDocs_append, rowsOfDocs_bootDocs, rowsOfDocs_nil]; rfl)
  simp only [getWorkoutByHevyId, hdb]

theorem getExerciseByHevyId_midStore (e : String) (k : Nat) (b : Doc)
    (hty : lookupField b "type" = some (.str "exercise"))
    (hhe : lookupField b "hevy_id" = some (.str e)) :
    getExerciseByHevyId (midStore k b) (.str e) =
      some (StoredDoc.toDoc ⟨"doc_0", k, b⟩) := by
  have hdb := dbView_byHevy_midStore "exercises" "by_hevy_id"
    exercisesByHevyIdMapJS "exercise" e k b
    (viewDef_boot [⟨"doc_0", k, b⟩] 1).1 evalMapJS_exercisesByHevyId hty hhe
  simp only [getExerciseByHevyId, hdb, getStored_midStore]
  rfl

theorem getWorkoutByHevyId_midStore (e : String) (k : Nat) (b : Doc)
    (hty : lookupField b "type" = some (.str "workout"))
    (hhe : lookupField b "hevy_id" = some (.str e)) :
    getWorkoutByHevyId (midStore k b) (.str e) =
      some (StoredDoc.toDoc ⟨"doc_0", k, b⟩) := by
  have hdb := dbView_byHevy_midStore "workouts" "by_hevy_id"
    workoutsByHevyIdMapJS "workout" e k b
    (viewDef_boot [⟨"doc_0", k, b⟩] 1).2.1 evalMapJS_workoutsByHevyId hty hhe
  simp only [getWorkoutByHevyId, hdb, getStored_midStore]
  rfl

theorem saveExercise_bootStore (e : String) (p : Doc)
    (hp : hevyPayload "exercise" e p) :
    saveExercise bootStore p = (.ok "doc_0", midStore 1 p) := by
  obtain ⟨hty, hhe, hid, hrev⟩ := hp
  simp only [saveExercise, hhe, getExerciseByHevyId_bootStore e]
  simp only [dbSave, hid]
  rw [stripMeta_eq_self p hid hrev, bootStore_eq]
  simp [midStore, freshId]
  decide

theorem saveWorkout_bootStore (e : String) (p : Doc)
    (hp : hevyPayload "workout" e p) :
    saveWorkout bootStore p = (.ok "doc_0", midStore 1 p) := by
  obtain ⟨hty, hhe, hid, hrev⟩ := hp
  simp only [saveWorkout, hhe, getWorkoutByHevyId_bootStore e]
  simp only [dbSave, hid]
  rw [stripMeta_eq_self p hid hrev, bootStore_eq]
  simp [midStore, freshId]
  decide

theorem bootDocs_map_untouched (sd' : StoredDoc) :
    bootDocs.map (fun d => if d.id == "doc_0" then sd' else d) = bootDocs := by
  have c1 : (("_design/users" : String) == "doc_0") = false := by decide
  have c2 : (("_design/exercises" : String) == "doc_0") = false := by decide
  have c3 : (("_design/workouts" : String) == "doc_0") = false := by decide
  simp [bootDocs, c1, c2, c3]

theorem dbSave_upsert_midStore (k : Nat) (b p : Doc)
    (hid : lookupField p "_id" = none) (hrev : lookupField p "_rev" = none) :
    dbSave (midStore k b)
        (setField (setField p "_id" (.str "doc_0")) "_rev" (.int (k : Int))) =
      (.ok ("doc_0", k + 1), midStore (k + 1) p) := by
  have hlid : lookupField
      (setField (setField p "_id" (.str "doc_0")) "_rev" (.int (k : Int))) "_id" =
      some (.str "doc_0") := by
    rw [lookupField_setField_ne _ _ _ _ (by decide), lookupField_setField_self]
  have hlrev : lookupField
      (setField (setField p "_id" (.str "doc_0")) "_rev" (.int (k : Int))) "_rev" =
      some (.int (k : Int)) := by
    rw [lookupField_setField_self]
  have hsm : stripMeta
      (setField (setField p "_id" (.str "doc_0")) "_rev" (.int (k : Int))) = p := by
    rw [stripMeta_setField_meta _ _ _ (Or.inr rfl),
      stripMeta_setField_meta _ _ _ (Or.inl rfl), stripMeta_eq_self p hid hrev]
  simp only [dbSave, hlid, getStored_midStore, hlrev, if_pos rfl]
  rw [midStore, midStore]
  simp only [List.map_append, bootDocs_map_untouched]
  simp [hsm]

theorem saveExercise_midStore (e : String) (k : Nat) (b p : Doc)
    (hbty : lookupField b "type" = some (.str "exercise"))
    (hbhe : lookupField b "hevy_id" = some (.str e))
    (hp : hevyPayload "exercise" e p) :
    saveExercise (midStore k b) p = (.ok "doc_0", midStore (k + 1) p) := by
  obtain ⟨hty, hhe, hid, hrev⟩ := hp
  simp only [saveExercise, hhe, getExerciseByHevyId_midStore e k b hbty hbhe,
    lookupField_toDoc_id, lookupField_toDoc_rev, Option.getD_some]
  rw [dbSave_upsert_midStore k b p hid hrev]

theorem saveWorkout_midStore (e : String) (k : Nat) (b p : Doc)
    (hbty : lookupField b "type" = some (.str "workout"))
    (hbhe : lookupField b "hevy_id" = some (.str e))
    (hp : hevyPayload "workout" e p) :
    saveWorkout (midStore k b) p = (.ok "doc_0", midStore (k + 1) p) := by
  obtain ⟨hty, hhe, hid, hrev⟩ := hp
  simp only [saveWorkout, hhe, getWorkoutByHevyId_midStore e k b hbty hbhe,
    lookupField_toDoc_id, lookupField_toDoc_rev, Option.getD_some]
  rw [dbSave_upsert_midStore k b p hid hrev]

theorem saveExerciseSeq_midStore (e : String) (ps : List Doc) :
    ∀ (k : Nat) (b : Doc), lookupField b "type" = some (.str "exercise") →
      lookupField b "hevy_id" = some (.str e) →
      (∀ p ∈ ps, hevyPayload "exercise" e p) →
      saveExerciseSeq (midStore k b) ps =
        (.ok (), midStore (k + ps.length) (ps.getLastD b)) := by
  induction ps with
  | nil =>
      intro k b _ _ _
      simp [saveExerciseSeq]
  | cons p ps ih =>
      intro k b hbty hbhe hps
      have hp := hps p (by simp)
      rw [saveExerciseSeq, saveExercise_midStore e k b p hbty hbhe hp]
      show saveExerciseSeq (midStore (k + 1) p) ps = _
      rw [ih (k + 1) p hp.1 hp.2.1 (fun q hq => hps q (by simp [hq]))]
      simp only [List.getLastD_cons, List.length_cons]
      have : k + 1 + ps.length = k + (ps.length + 1) := by omega
      rw [this]

theorem saveWorkoutSeq_midStore (e : String) (ps : List Doc) :
    ∀ (k : Nat) (b : Doc), lookupField b "type" = some (.str "workout") →
      lookupField b "hevy_id" = some (.str e) →
      (∀ p ∈ ps, hevyPayload "workout" e p) →
      saveWorkoutSeq (midStore k b) ps =
        (.ok (), midStore (k + ps.length) (ps.getLastD b)) := by
  induction ps with
  | nil =>
      intro k b _ _ _
      simp [saveWorkoutSeq]
  | cons p ps ih =>
      intro k b hbty hbhe hps
      have hp := hps p (by simp)
      rw [saveWorkoutSeq, saveWorkout_midStore e k b p hbty hbhe hp]
      show saveWorkoutSeq (midStore (k + 1) p) ps = _
      rw [ih (k + 1) p hp.1 hp.2.1 (fun q hq => hps q (by simp [hq]))]
      simp only [List.getLastD_cons, List.length_cons]
      have : k + 1 + ps.length = k + (ps.length + 1) := by omega
      rw [this]

theorem filterHevy_midStore (e : String) (k : Nat) (b : Doc)
    (hb : lookupField b "hevy_id" = some (.str e)) :
    (midStore k b).docs.filter
      (fun sd => lookupField sd.body "hevy_id" == some (.str e)) =
      [⟨"doc_0", k, b⟩] := by
  have c1 : (lookupField (stripMeta usersDesignDoc) "hevy_id" ==
      some (Value.str e)) = false := by
    rw [(by decide : lookupField (stripMeta usersDesignDoc) "hevy_id" = none)]
    rfl
  have c2 : (lookupField (stripMeta exercisesDesignDoc) "hevy_id" ==
      some (Value.str e)) = false := by
    rw [(by decide : lookupField (stripMeta exercisesDesignDoc) "hevy_id" = none)]
    rfl
  have c3 : (lookupField (stripMeta workoutsDesignDoc) "hevy_id" ==
      some (Value.str e)) = false := by
    rw [(by decide : lookupField (stripMeta workoutsDesignDoc) "hevy_id" = none)]
    rfl
  simp [midStore, bootDocs, List.filter_append, List.filter_cons, c1, c2, c3, hb]

theorem getLastD_self_or_mem {α : Type} (l : List α) (d : α) :
    l.getLastD d = d ∨ l.getLastD d ∈ l := by
  induction l generalizing d with
  | nil => left; rfl
  | cons a l ih =>
      rw [List.getLastD_cons]
      rcases ih a with h | h
      · right
        rw [h]
        exact List.mem_cons_self a l
      · right
        exact List.mem_cons_of_mem a h

/-- C1 (amended): from a freshly bootstrapped store, a sequence of
`save_exercise` (resp. `save_workout`) calls whose payloads all carry the
same `hevy_id`, the matching `type` discriminant and no `_id`/`_rev` of
their own succeeds and leaves exactly one stored document with that
`hevy_id`: its `_id` is the one assigned by the first call, its fields are
the most recent payload's fields, and its revision equals the number of
calls made — so the revision after a second call differs from the revision
after the first. -/
theorem upsert_same_hevy_id_sequence :
    (∀ (e : String) (p0 : Doc) (rest : List Doc),
      hevyPayload "exercise" e p0 →
      (∀ p ∈ rest, hevyPayload "exercise" e p) →
      ∃ st1 stf,
        saveExercise bootStore p0 = (.ok "doc_0", st1) ∧
        saveExerciseSeq st1 rest = (.ok (), stf) ∧
        st1.docs.filter
          (fun sd => lookupField sd.body "hevy_id" == some (.str e)) =
          [⟨"doc_0", 1, p0⟩] ∧
        stf.docs.filter
          (fun sd => lookupField sd.body "hevy_id" == some (.str e)) =
          [⟨"doc_0", 1 + rest.length, rest.getLastD p0⟩] ∧
        (rest ≠ [] → 1 + rest.length ≠ 1)) ∧
    (∀ (e : String) (p0 : Doc) (rest : List Doc),
      hevyPayload "workout" e p0 →
      (∀ p ∈ rest, hevyPayload "workout" e p) →
      ∃ st1 stf,
        saveWorkout bootStore p0 = (.ok "doc_0", st1) ∧
        saveWorkoutSeq st1 rest = (.ok (), stf) ∧
        st1.docs.filter
          (fun sd => lookupField sd.body "hevy_id" == some (.str e)) =
          [⟨"doc_0", 1, p0⟩] ∧
        stf.docs.filter
          (fun sd => lookupField sd.body "hevy_id" == some (.str e)) =
          [⟨"doc_0", 1 + rest.length, rest.getLastD p0⟩] ∧
        (rest ≠ [] → 1 + rest.length ≠ 1)) := by
  constructor
  · intro e p0 rest hp0 hrest
    have hlast : lookupField (rest.getLastD p0) "hevy_id" = some (.str e) := by
      rcases getLastD_self_or_mem rest p0 with h | h
      · rw [h]; exact hp0.2.1
      · exact (hrest _ h).2.1
    refine ⟨midStore 1 p0, midStore (1 + rest.length) (rest.getLastD p0),
      saveExercise_bootStore e p0 hp0,
      saveExerciseSeq_midStore e rest 1 p0 hp0.1 hp0.2.1 hrest,
      filterHevy_midStore e 1 p0 hp0.2.1,
      filterHevy_midStore e (1 + rest.length) _ hlast, ?_⟩
    intro hne
    have : 0 < rest.length := List.length_pos.2 hne
    omega
  · intro e p0 rest hp0 hrest
    have hlast : lookupField (rest.getLastD p0) "hevy_id" = some (.str e) := by
      rcases getLastD_self_or_mem rest p0 with h | h
      · rw [h]; exact hp0.2.1
      · exact (hrest _ h).2.1
    refine ⟨midStore 1 p0, midStore (1 + rest.length) (rest.getLastD p0),
      saveWorkout_bootStore e p0 hp0,
      saveWorkoutSeq_midStore e rest 1 p0 hp0.1 hp0.2.1 hrest,
      filterHevy_midStore e 1 p0 hp0.2.1,
      filterHevy_midStore e (1 + rest.length) _ hlast, ?_⟩
    intro hne
    have : 0 < rest.length := List.length_pos.2 hne
    omega

/-- C1 counterexample: the claim quantified over all payloads with the same
`hevy_id` fails — a payload without the `type` discriminant is invisible to
the `exercises/by_hevy_id` view, so saving it twice from a bootstrapped
store leaves two stored documents with that `hevy_id`, not one. -/
theorem upsert_same_hevy_id_counterexample :
    (saveExerciseSeq bootStore
      [[("hevy_id", .str "E1")], [("hevy_id", .str "E1")]]).1 = .ok () ∧
    ((saveExerciseSeq bootStore
        [[("hevy_id", .str "E1")], [("hevy_id", .str "E1")]]).2.docs.filter
      (fun sd => lookupField sd.body "hevy_id" == some (.str "E1"))).length = 2 := by
  constructor
  · rfl
  · rfl

/-- Witness for C1 (amended): two well-formed exercise payloads sharing the
external id E1. -/
theorem upsert_same_hevy_id_sequence_witness :
    ∃ st1 stf : Store,
      saveExercise bootStore
        [("type", .str "exercise"), ("hevy_id", .str "E1"),
         ("name", .str "Squat")] = (.ok "doc_0", st1) ∧
      saveExerciseSeq st1
        [[("type", .str "exercise"), ("hevy_id", .str "E1"),
          ("name", .str "Back Squat")]] = (.ok (), stf) ∧
      st1.docs.filter
        (fun sd => lookupField sd.body "hevy_id" == some (.str "E1")) =
        [⟨"doc_0", 1,
          [("type", .str "exercise"), ("hevy_id", .str "E1"),
           ("name", .str "Squat")]⟩] ∧
      stf.docs.filter
        (fun sd => lookupField sd.body "hevy_id" == some (.str "E1")) =
        [⟨"doc_0", 2,
          [("type", .str "exercise"), ("hevy_id", .str "E1"),
           ("name", .str "Back Squat")]⟩] := by
  obtain ⟨st1, stf, h1, h2, h3, h4, h5⟩ :=
    upsert_same_hevy_id_sequence.1 "E1"
      [("type", .str "exercise"), ("hevy_id", .str "E1"), ("name", .str "Squat")]
      [[("type", .str "exercise"), ("hevy_id", .str "E1"),
        ("name", .str "Back Squat")]]
      ⟨by decide, by decide, by decide, by decide⟩
      (by
        intro p hp
        rw [List.mem_singleton] at hp
        subst hp
        exact ⟨by decide, by decide, by decide, by decide⟩)
  exact ⟨st1, stf, h1, h2, h3, by simpa using h4⟩

/-! ## Claim C4: date-range query correctness -/

theorem Value.leB_str_eq (a b : String) :
    Value.leB (.str a) (.str b) = decide (a ≤ b) := by
  have hlt : (a.data < b.data) ↔ a < b := by
    rw [String.lt_iff_toList_lt]
    rfl
  rw [Value.leB]
  simp only [Value.cmp]
  by_cases h1 : a.data < b.data
  · simp [h1, le_of_lt (hlt.mp h1)]
  · by_cases h2 : a = b
    · subst h2
      simp [h1]
    · have hnlt : ¬ a < b := fun h => h1 (hlt.mpr h)
      have hnle : ¬ a ≤ b := fun hle => h2 (le_antisymm hle (le_of_not_lt hnlt))
      simp [h1, h2, hnle]

theorem dbSave_fresh (st : Store) (p : Doc)
    (hid : lookupField p "_id" = none) (hrev : lookupField p "_rev" = none) :
    dbSave st p = (.ok (freshId st.counter, 1),
      ⟨st.docs ++ [⟨freshId st.counter, 1, p⟩], st.counter + 1⟩) := by
  simp only [dbSave, hid]
  rw [stripMeta_eq_self p hid hrev]

/-- The three-workout store of C4: a bootstrapped store with the workouts
saved in the scrambled order w2, w1, w3. -/
def threeWorkoutStore (w1 w2 w3 : Doc) : Store :=
  (dbSave ((dbSave ((dbSave bootStore w2).2) w1).2) w3).2

/-- C4: with workouts at start times `s1 < s2 < s3` stored (here in the
scrambled order w2, w1, w3), `get_workouts_by_date_range(s1, s2)` returns
exactly the two workouts whose start time lies in the closed interval
`[s1, s2]` — excluding the one at `s3` — ordered by ascending start time. -/
theorem getWorkoutsByDateRange_range (w1 w2 w3 : Doc) (s1 s2 s3 : String)
    (ht1 : lookupField w1 "type" = some (.str "workout"))
    (hs1 : lookupField w1 "start_time" = some (.str s1))
    (hi1 : lookupField w1 "_id" = none) (hr1 : lookupField w1 "_rev" = none)
    (ht2 : lookupField w2 "type" = some (.str "workout"))
    (hs2 : lookupField w2 "start_time" = some (.str s2))
    (hi2 : lookupField w2 "_id" = none) (hr2 : lookupField w2 "_rev" = none)
    (ht3 : lookupField w3 "type" = some (.str "workout"))
    (hs3 : lookupField w3 "start_time" = some (.str s3))
    (hi3 : lookupField w3 "_id" = none) (hr3 : lookupField w3 "_rev" = none)
    (h12 : s1 < s2) (h23 : s2 < s3) :
    getWorkoutsByDateRange (threeWorkoutStore w1 w2 w3) ⟨s1⟩ ⟨s2⟩ =
      .ok [.obj (StoredDoc.toDoc ⟨"doc_1", 1, w1⟩),
           .obj (StoredDoc.toDoc ⟨"doc_0", 1, w2⟩)] := by
  have hst : threeWorkoutStore w1 w2 w3 =
      ⟨bootDocs ++ [⟨"doc_0", 1, w2⟩, ⟨"doc_1", 1, w1⟩, ⟨"doc_2", 1, w3⟩], 3⟩ := by
    rw [threeWorkoutStore, bootStore_eq, dbSave_fresh _ w2 hi2 hr2]
    dsimp only
    rw [dbSave_fresh _ w1 hi1 hr1]
    dsimp only
    rw [dbSave_fresh _ w3 hi3 hr3]
    dsimp only
    have f0 : freshId 0 = "doc_0" := by decide
    have f1 : freshId 1 = "doc_1" := by decide
    have f2 : freshId 2 = "doc_2" := by decide
    rw [f0, f1, f2]
    simp
  have htd1 : lookupField (StoredDoc.toDoc ⟨"doc_1", 1, w1⟩) "type" =
      some (.str "workout") := by
    rw [lookupField_toDoc _ _ (by decide) (by decide)]; exact ht1
  have htd2 : lookupField (StoredDoc.toDoc ⟨"doc_0", 1, w2⟩) "type" =
      some (.str "workout") := by
    rw [lookupField_toDoc _ _ (by decide) (by decide)]; exact ht2
  have htd3 : lookupField (StoredDoc.toDoc ⟨"doc_2", 1, w3⟩) "type" =
      some (.str "workout") := by
    rw [lookupField_toDoc _ _ (by decide) (by decide)]; exact ht3
  have hsd1 : lookupField (StoredDoc.toDoc ⟨"doc_1", 1, w1⟩) "start_time" =
      some (.str s1) := by
    rw [lookupField_toDoc _ _ (by decide) (by decide)]; exact hs1
  have hsd2 : lookupField (StoredDoc.toDoc ⟨"doc_0", 1, w2⟩) "start_time" =
      some (.str s2) := by
    rw [lookupField_toDoc _ _ (by decide) (by decide)]; exact hs2
  have hsd3 : lookupField (StoredDoc.toDoc ⟨"doc_2", 1, w3⟩) "start_time" =
      some (.str s3) := by
    rw [lookupField_toDoc _ _ (by decide) (by decide)]; exact hs3
  have hb11 : Value.leB (.str s1) (.str s1) = true := by
    rw [Value.leB_str_eq]; simp
  have hb12 : Value.leB (.str s1) (.str s2) = true := by
    rw [Value.leB_str_eq]; simp [le_of_lt h12]
  have hb13 : Value.leB (.str s1) (.str s3) = true := by
    rw [Value.leB_str_eq]; simp [le_of_lt (h12.trans h23)]
  have hb22 : Value.leB (.str s2) (.str s2) = true := by
    rw [Value.leB_str_eq]; simp
  have hb21 : Value.leB (.str s2) (.str s1) = false := by
    rw [Value.leB_str_eq, decide_eq_false (not_le.mpr h12)]
  have hb32 : Value.leB (.str s3) (.str s2) = false := by
    rw [Value.leB_str_eq, decide_eq_false (not_le.mpr h23)]
  have hvd := (viewDef_boot
    [⟨"doc_0", 1, w2⟩, ⟨"doc_1", 1, w1⟩, ⟨"doc_2", 1, w3⟩] 3).2.2.1
  rw [hst, getWorkoutsByDateRange]
  simp only [dbView, hvd, rowsOfDocs_append, rowsOfDocs_bootDocs, rowsOfDocs_cons,
    rowsOfDocs_nil, evalMapJS_workoutsByDate,
    emitByField_eq _ _ _ htd1, emitByField_eq _ _ _ htd2, emitByField_eq _ _ _ htd3,
    hsd1, hsd2, hsd3, Option.getD_some, List.map_cons, List.map_nil,
    List.nil_append, List.append_nil, List.cons_append,
    List.filter_cons, List.filter_nil, hb11, hb12, hb13, hb22, hb21, hb32]
  simp [sortRows, insertRow, List.filter_cons, hb11, hb12, hb13, hb22, hb21, hb32]

/-- Witness for C4 at three concrete workouts with January/February start
times, saved out of order. -/
theorem getWorkoutsByDateRange_range_witness :
    getWorkoutsByDateRange
      (threeWorkoutStore
        [("type", .str "workout"), ("start_time", .str "2024-01-01T08:00:00")]
        [("type", .str "workout"), ("start_time", .str "2024-01-15T08:00:00")]
        [("type", .str "workout"), ("start_time", .str "2024-02-01T08:00:00")])
      ⟨"2024-01-01T08:00:00"⟩ ⟨"2024-01-15T08:00:00"⟩ =
      .ok [.obj (StoredDoc.toDoc ⟨"doc_1", 1,
              [("type", .str "workout"),
               ("start_time", .str "2024-01-01T08:00:00")]⟩),
           .obj (StoredDoc.toDoc ⟨"doc_0", 1,
              [("type", .str "workout"),
               ("start_time", .str "2024-01-15T08:00:00")]⟩)] :=
  getWorkoutsByDateRange_range
    [("type", .str "workout"), ("start_time", .str "2024-01-01T08:00:00")]
    [("type", .str "workout"), ("start_time", .str "2024-01-15T08:00:00")]
    [("type", .str "workout"), ("start_time", .str "2024-02-01T08:00:00")]
    "2024-01-01T08:00:00" "2024-01-15T08:00:00" "2024-02-01T08:00:00"
    (by decide) (by decide) (by decide) (by decide)
    (by decide) (by decide) (by decide) (by decide)
    (by decide) (by decide) (by decide) (by decide)
    (by rw [String.lt_iff_toList_lt]; decide)
    (by rw [String.lt_iff_toList_lt]; decide)

/-! ## Claim C7: workout statistics reduction -/

/-- A stored document the `stats` map emits for. -/
def isWorkoutDoc (sd : StoredDoc) : Bool :=
  lookupField sd.body "type" == some (.str "workout")

/-- The workout's start time, the view key. -/
def startOf (sd : StoredDoc) : Value :=
  (lookupField sd.body "start_time").getD .null

/-- The workout's duration (an integer field). -/
def durationOf (sd : StoredDoc) : Int :=
  match lookupField sd.body "duration" with
  | some (.int n) => n
  | _ => 0

/-- The workout's number of exercises. -/
def exerciseCountOf (sd : StoredDoc) : Int :=
  match lookupField sd.body "exercises" with
  | some (.arr xs) => (xs.length : Int)
  | _ => 0

/-- The row the `stats` map emits for one workout. -/
def statsRow (sd : StoredDoc) : Row :=
  ⟨startOf sd,
    .obj [("duration", .int (durationOf sd)),
          ("exercise_count", .int (exerciseCountOf sd))],
    some sd.id⟩

/-- The reduction the spec describes: sum of durations, sum of exercise
counts, and the number of workouts (no rows when there are no workouts). -/
def statsValue (xs : List StoredDoc) : List Value :=
  if xs.isEmpty then []
  else [.obj [("total_duration", .int (xs.map durationOf).sum),
              ("total_exercises", .int (xs.map exerciseCountOf).sum),
              ("count", .int (xs.length : Int))]]

/-- Well-formed workout document: integer duration, array of exercises. -/
def workoutWF (sd : StoredDoc) : Prop :=
  lookupField sd.body "type" = some (.str "workout") →
    (∃ n : Int, lookupField sd.body "duration" = some (.int n)) ∧
    (∃ xs : List Value, lookupField sd.body "exercises" = some (.arr xs))

theorem viewDef_stats (st : Store) (r : Nat)
    (hdd : getStored st "_design/workouts" =
      some ⟨"_design/workouts", r, stripMeta workoutsDesignDoc⟩) :
    viewDef st "workouts" "stats" =
      some (workoutsStatsMapJS, some workoutsStatsReduceJS) := by
  have happ : ("_design/" ++ "workouts" : String) = "_design/workouts" := rfl
  simp only [viewDef, happ, hdd]
  rfl

theorem rowsOfDocs_stats (l : List StoredDoc) (hWF : ∀ sd ∈ l, workoutWF sd) :
    rowsOfDocs l workoutsStatsMapJS = (l.filter isWorkoutDoc).map statsRow := by
  induction l with
  | nil => rfl
  | cons sd l ih =>
      rw [rowsOfDocs_cons, List.filter_cons,
        ih (fun x hx => hWF x (List.mem_cons_of_mem _ hx))]
      by_cases hw : lookupField sd.body "type" = some (.str "workout")
      · obtain ⟨⟨n, hdur⟩, ⟨xs, hexs⟩⟩ := hWF sd (by simp) hw
        have htd : lookupField sd.toDoc "type" = some (.str "workout") := by
          rw [lookupField_toDoc _ _ (by decide) (by decide)]; exact hw
        have hdurtd : lookupField sd.toDoc "duration" = some (.int n) := by
          rw [lookupField_toDoc _ _ (by decide) (by decide)]; exact hdur
        have hexstd : lookupField sd.toDoc "exercises" = some (.arr xs) := by
          rw [lookupField_toDoc _ _ (by decide) (by decide)]; exact hexs
        have hstd : lookupField sd.toDoc "start_time" =
            lookupField sd.body "start_time" :=
          lookupField_toDoc _ _ (by decide) (by decide)
        have hwb : isWorkoutDoc sd = true := by simp [isWorkoutDoc, hw]
        rw [evalMapJS_stats_emit sd.toDoc n xs htd hdurtd hexstd, hwb]
        simp only [if_pos, List.map_cons, List.map_nil, List.singleton_append]
        congr 1
        rw [statsRow, startOf, durationOf, exerciseCountOf, hstd, hdur, hexs]
      · have htd : ¬ lookupField sd.toDoc "type" = some (.str "workout") := by
          rw [lookupField_toDoc _ _ (by decide) (by decide)]; exact hw
        have hwb : isWorkoutDoc sd = false := by simp [isWorkoutDoc, hw]
        rw [evalMapJS_stats_not_workout _ htd, hwb]
        simp

theorem filter_map_comm {α β : Type} (f : α → β) (p : β → Bool) (l : List α) :
    (l.map f).filter p = (l.filter (fun a => p (f a))).map f := by
  induction l with
  | nil => rfl
  | cons a l ih =>
      by_cases h : p (f a) = true <;> simp [List.filter_cons, h, ih]

theorem filter_filter_and {α : Type} (p q : α → Bool) (l : List α) :
    (l.filter p).filter q = l.filter (fun a => p a && q a) := by
  induction l with
  | nil => rfl
  | cons a l ih =>
      by_cases h1 : p a = true <;> by_cases h2 : q a = true <;>
        simp [List.filter_cons, h1, h2, ih]

theorem statValInt_duration (sd : StoredDoc) :
    statValInt "duration" (statsRow sd).value = durationOf sd := by
  rw [statsRow, statValInt, lookupField_cons, if_pos rfl]

theorem statValInt_exercise_count (sd : StoredDoc) :
    statValInt "exercise_count" (statsRow sd).value = exerciseCountOf sd := by
  rw [statsRow, statValInt, lookupField_cons, if_neg (by decide), lookupField_cons,
    if_pos rfl]

theorem stats_reduce_of_perm (F : List StoredDoc) (vals : List Value)
    (hperm : vals.Perm (F.map (fun sd => (statsRow sd).value))) :
    evalReduceJS workoutsStatsReduceJS vals =
      .obj [("total_duration", .int (F.map durationOf).sum),
            ("total_exercises", .int (F.map exerciseCountOf).sum),
            ("count", .int (F.length : Int))] := by
  rw [evalReduceJS, if_pos rfl]
  have hd : (vals.map (statValInt "duration")).sum = (F.map durationOf).sum := by
    rw [List.Perm.sum_eq (hperm.map (statValInt "duration")), List.map_map]
    congr 1
  have he : (vals.map (statValInt "exercise_count")).sum =
      (F.map exerciseCountOf).sum := by
    rw [List.Perm.sum_eq (hperm.map (statValInt "exercise_count")), List.map_map]
    congr 1
  have hc : vals.length = F.length := by
    rw [hperm.length_eq, List.length_map]
  rw [hd, he, hc]

theorem statsRow_key (sd : StoredDoc) : (statsRow sd).key = startOf sd := rfl

theorem sortRows_map_ne_nil (l : List Row) (x : Row) (xs : List Row)
    (h : l = x :: xs) : (sortRows l).isEmpty = false := by
  subst h
  cases hs : sortRows (x :: xs) with
  | nil =>
      have hl := (sortRows_perm (x :: xs)).length_eq
      rw [hs] at hl
      simp at hl
  | cons r rs => rfl

/-- C7: on a store holding the bootstrap's workouts design document and
whose workout documents carry an integer `duration` and an `exercises`
array, `get_workout_stats(start, end)` returns the reduction — sum of
durations, sum of exercise counts, number of workouts — over exactly the
workouts whose start time lies in the closed range `[start, end]`, and with
no bounds the same reduction over all stored workouts. -/
theorem getWorkoutStats_reduction (st : Store) (r : Nat) (t1 t2 : PyDateTime)
    (hdd : getStored st "_design/workouts" =
      some ⟨"_design/workouts", r, stripMeta workoutsDesignDoc⟩)
    (hWF : ∀ sd ∈ st.docs, workoutWF sd) :
    getWorkoutStats st (some t1) (some t2) =
      .ok (statsValue (st.docs.filter (fun sd =>
        isWorkoutDoc sd && (Value.leB (.str t1.iso) (startOf sd) &&
          Value.leB (startOf sd) (.str t2.iso))))) ∧
    getWorkoutStats st none none =
      .ok (statsValue (st.docs.filter isWorkoutDoc)) := by
  have hvd := viewDef_stats st r hdd
  have hrows := rowsOfDocs_stats st.docs hWF
  constructor
  · simp only [getWorkoutStats, dbView, hvd, hrows]
    rw [filter_map_comm, filter_map_comm]
    simp only [statsRow_key]
    rw [filter_filter_and, filter_filter_and]
    cases hFl : st.docs.filter (fun sd =>
        isWorkoutDoc sd && (Value.leB (.str t1.iso) (startOf sd) &&
          Value.leB (startOf sd) (.str t2.iso))) with
    | nil => simp [sortRows, statsValue, Except.map]
    | cons x xs =>
        have hie := sortRows_map_ne_nil (List.map statsRow (x :: xs))
          (statsRow x) (List.map statsRow xs) (by simp)
        have hperm : ((sortRows (List.map statsRow (x :: xs))).map
            (fun r => r.value)).Perm
            ((x :: xs).map (fun sd => (statsRow sd).value)) := by
          have h1 := (sortRows_perm (List.map statsRow (x :: xs))).map
            (fun r => r.value)
          rwa [List.map_map] at h1
        rw [hie]
        simp only [Bool.false_eq_true, if_false,
          stats_reduce_of_perm (x :: xs) _ hperm]
        simp [statsValue, Except.map]
  · simp only [getWorkoutStats, dbView, hvd, hrows]
    cases hFl : st.docs.filter isWorkoutDoc with
    | nil => simp [sortRows, statsValue, Except.map]
    | cons x xs =>
        have hie := sortRows_map_ne_nil (List.map statsRow (x :: xs))
          (statsRow x) (List.map statsRow xs) (by simp)
        have hperm : ((sortRows (List.map statsRow (x :: xs))).map
            (fun r => r.value)).Perm
            ((x :: xs).map (fun sd => (statsRow sd).value)) := by
          have h1 := (sortRows_perm (List.map statsRow (x :: xs))).map
            (fun r => r.value)
          rwa [List.map_map] at h1
        rw [hie]
        simp only [Bool.false_eq_true, if_false,
          stats_reduce_of_perm (x :: xs) _ hperm]
        simp [statsValue, Except.map]

/-- A concrete bootstrapped store with two workouts and one exercise. -/
def statsWitnessStore : Store :=
  ⟨bootDocs ++
    [⟨"w1", 1, [("type", .str "workout"),
       ("start_time", .str "2024-01-10T08:00:00"),
       ("duration", .int 3600),
       ("exercises", .arr [.obj [("template_id", .str "sq")],
         .obj [("template_id", .str "bp")]])]⟩,
     ⟨"w2", 1, [("type", .str "workout"),
       ("start_time", .str "2024-02-10T08:00:00"),
       ("duration", .int 1800),
       ("exercises", .arr [.obj [("template_id", .str "dl")]])]⟩,
     ⟨"e1", 1, [("type", .str "exercise"), ("hevy_id", .str "E9")]⟩], 0⟩

/-- Witness for C7: the January range reduces over the one January workout;
the unbounded query reduces over both workouts, ignoring the exercise. -/
theorem getWorkoutStats_reduction_witness :
    getWorkoutStats statsWitnessStore
        (some ⟨"2024-01-01T00:00:00"⟩) (some ⟨"2024-01-31T00:00:00"⟩) =
      .ok [.obj [("total_duration", .int 3600), ("total_exercises", .int 2),
        ("count", .int 1)]] ∧
    getWorkoutStats statsWitnessStore none none =
      .ok [.obj [("total_duration", .int 5400), ("total_exercises", .int 3),
        ("count", .int 2)]] := by
  have h := getWorkoutStats_reduction statsWitnessStore 1
    ⟨"2024-01-01T00:00:00"⟩ ⟨"2024-01-31T00:00:00"⟩ (by decide)
    (by
      intro sd hsd
      simp only [statsWitnessStore, bootDocs, List.cons_append, List.nil_append,
        List.mem_cons, List.not_mem_nil, or_false] at hsd
      rcases hsd with rfl | rfl | rfl | rfl | rfl | rfl <;> intro hty
      · exact absurd hty (by decide)
      · exact absurd hty (by decide)
      · exact absurd hty (by decide)
      · exact ⟨⟨3600, rfl⟩, ⟨_, rfl⟩⟩
      · exact ⟨⟨1800, rfl⟩, ⟨_, rfl⟩⟩
      · exact absurd hty (by decide))
  constructor
  · rw [h.1]
    rfl
  · rw [h.2]
    rfl
